import Mathlib

/-!
Verification development for the schema-adaptive persistence and query layer
of the pflanzenschutzliste repository (SQLite worker, BVL sync orchestrator).

The JavaScript source is shallowly embedded: JavaScript runtime values become
the inductive type `JVal`, SQLite storage cells become `SqlVal`, the BVL
tables become lists of row records, and every stateful operation becomes an
explicit state-passing function.  Transactions are modelled by running the
transaction body as a pure computation in `Except` and keeping the original
state on error (ROLLBACK) or the computed state on success (COMMIT); this is
sound because the worker owns the single database connection and runs
single-threaded.

Deliberate, claim-irrelevant restrictions of the embedding (each noted again
at its definition): JavaScript numbers are modelled as integers (no IEEE
fractions), JSON payloads are restricted to integer numerals and to strings
without unicode escapes, and SQLite raises an error on json functions applied
to malformed JSON text where the model returns NULL.
-/

/-! ### Character and string utilities -/

/-- Whitespace as recognised by the JavaScript `String.prototype.trim`
(restricted to the ASCII whitespace characters that actually occur in the
modelled data). -/
def jsWhitespaceChar (c : Char) : Bool :=
  c = ' ' || c = '\t' || c = '\n' || c = '\r' || c = '\x0b' || c = '\x0c'

/-- List-level two-sided trim: drop leading and trailing characters
satisfying `p`. -/
def trimCharsList (p : Char → Bool) (l : List Char) : List Char :=
  ((l.dropWhile p).reverse.dropWhile p).reverse

/-- String-level two-sided trim by a character predicate. -/
def trimChars (p : Char → Bool) (s : String) : String :=
  String.mk (trimCharsList p s.toList)

/-- JavaScript `value.trim()`. -/
def jsTrim (s : String) : String :=
  trimChars jsWhitespaceChar s

/-- SQLite `TRIM(x)` on text: by default only the space character is
removed, in contrast with the JavaScript trim. -/
def sqlTrimText (s : String) : String :=
  trimChars (fun c => c = ' ') s

/-- ASCII lowercase on a character (the modelled data is ASCII; the
JavaScript `toLowerCase` and SQLite `LOWER` agree with this on ASCII). -/
def asciiLowerChar (c : Char) : Char :=
  if 'A' ≤ c && c ≤ 'Z' then Char.ofNat (c.toNat + 32) else c

/-- ASCII lowercase on a string, via the character list (kernel-reducible,
unlike the byte-position loop of the core `String.toLower`). -/
def asciiLower (s : String) : String :=
  String.mk (s.toList.map asciiLowerChar)

/-- Substring test over character lists (needle, then haystack). -/
def charsContain (needle : List Char) : List Char → Bool
  | [] => needle.isEmpty
  | c :: t => needle.isPrefixOf (c :: t) || charsContain needle t

/-- Substring containment on strings, used to model `LIKE '%needle%'`
patterns whose needle contains no LIKE metacharacters (the modelled call
sites build the pattern from already-lowercased search terms). -/
def strContains (hay needle : String) : Bool :=
  charsContain needle.toList hay.toList

/-! ### JavaScript runtime values -/

/-- JavaScript runtime values as they flow through the worker: `undefined`,
`null`, booleans, numbers (restricted to integers; IEEE fractions are outside
the embedding), strings, arrays and plain objects. -/
inductive JVal where
  | undefined
  | null
  | bool (b : Bool)
  | num (n : Int)
  | str (s : String)
  | arr (elems : List JVal)
  | obj (fields : List (String × JVal))

/-- Member access `v.k`: field lookup on objects, `undefined` otherwise.
(JavaScript throws on a `null`/`undefined` receiver; every modelled call
site guards the receiver, so the total `undefined` default is never observed.) -/
def JVal.member (v : JVal) (k : String) : JVal :=
  match v with
  | .obj fields =>
    match fields.find? (fun kv => kv.1 = k) with
    | some kv => kv.2
    | none => .undefined
  | _ => .undefined

/-- JavaScript truthiness. -/
def jsTruthy (v : JVal) : Bool :=
  match v with
  | .undefined => false
  | .null => false
  | .bool b => b
  | .num n => n != 0
  | .str s => s ≠ ""
  | .arr _ => true
  | .obj _ => true

/-- JavaScript `a || b`. -/
def jsOr (a b : JVal) : JVal :=
  if jsTruthy a then a else b

/-- JavaScript `String(v)` for the value shapes reaching the modelled call
sites (objects and arrays use the generic object fallbacks). -/
def jsString (v : JVal) : String :=
  match v with
  | .undefined => "undefined"
  | .null => "null"
  | .bool b => if b then "true" else "false"
  | .num n => toString n
  | .str s => s
  | .arr _ => ""
  | .obj _ => "[object Object]"

/-- Decimal digits to a natural number. -/
def digitsToNat (ds : List Char) : Nat :=
  ds.foldl (fun acc c => acc * 10 + (c.toNat - 48)) 0

/-- Leading-integer parse after the optional sign: `some n` when at least
one leading digit exists (further characters ignored), `none` otherwise.
This is the JavaScript `parseInt` shape. -/
def leadingIntOf (cs : List Char) : Option Int :=
  match cs with
  | '-' :: rest =>
    let ds := rest.takeWhile Char.isDigit
    if ds.isEmpty then none else some (-(digitsToNat ds : Int))
  | '+' :: rest =>
    let ds := rest.takeWhile Char.isDigit
    if ds.isEmpty then none else some (digitsToNat ds : Int)
  | _ =>
    let ds := cs.takeWhile Char.isDigit
    if ds.isEmpty then none else some (digitsToNat ds : Int)

/-- JavaScript `parseInt(String(v))`; `none` models `NaN`.  (The hexadecimal
`0x` form of parseInt is outside the modelled data.) -/
def jsParseInt (v : JVal) : Option Int :=
  leadingIntOf ((jsTrim (jsString v)).toList)

/-- JavaScript `parseFloat(String(v))` restricted to integral results;
`none` models `NaN`.  Fractional literals are outside the embedding. -/
def jsParseFloat (v : JVal) : Option Int :=
  leadingIntOf ((jsTrim (jsString v)).toList)

/-- Full-string signed integer parse (no surrounding junk allowed). -/
def exactIntOf (cs : List Char) : Option Int :=
  match cs with
  | '-' :: rest =>
    if rest ≠ [] && rest.all Char.isDigit then some (-(digitsToNat rest : Int)) else none
  | '+' :: rest =>
    if rest ≠ [] && rest.all Char.isDigit then some (digitsToNat rest : Int) else none
  | _ =>
    if cs ≠ [] && cs.all Char.isDigit then some (digitsToNat cs : Int) else none

/-- JavaScript `Number(v)`; `none` models `NaN`.  Strings must be a complete
integer numeral after trimming (fractional numerals are outside the
embedding); the empty or all-whitespace string converts to `0`. -/
def jsToNumber (v : JVal) : Option Int :=
  match v with
  | .undefined => none
  | .null => some 0
  | .bool b => some (if b then 1 else 0)
  | .num n => some n
  | .str s =>
    let t := jsTrim s
    if t = "" then some 0 else exactIntOf t.toList
  | .arr _ => none
  | .obj _ => none

/-- Embedding of `toBooleanFlag` (src/unnamed/part_000 lines 244 to 269):
numbers count as set when positive, booleans map to their bit, strings are
trimmed, lowercased and compared against the fixed truthy set, and every
other value yields 0. -/
def toBooleanFlag (v : JVal) : Int :=
  match v with
  | .null => 0
  | .undefined => 0
  | .num n => if n > 0 then 1 else 0
  | .bool b => if b then 1 else 0
  | .str s =>
    let normalized := asciiLower (jsTrim s)
    if normalized = "" then 0
    else if normalized ∈ ["1", "true", "ja", "yes", "y"] then 1
    else 0
  | .arr _ => 0
  | .obj _ => 0

/-- Embedding of `pickFirstNonEmpty` (src/unnamed/part_000 lines 220 to
242): skip null and undefined, skip strings that are empty after a
JavaScript trim (returning the trimmed form otherwise), skip empty arrays,
return any other value unchanged; `null` when everything was skipped. -/
def pickFirstNonEmpty : List JVal → JVal
  | [] => .null
  | v :: rest =>
    match v with
    | .null => pickFirstNonEmpty rest
    | .undefined => pickFirstNonEmpty rest
    | .str s =>
      if jsTrim s = "" then pickFirstNonEmpty rest else .str (jsTrim s)
    | .arr elems =>
      if elems.isEmpty then pickFirstNonEmpty rest else .arr elems
    | other => other


/-! ### SQLite storage values and expression semantics -/

/-- SQLite storage cells for the modelled tables: NULL, INTEGER or TEXT.
(REAL cells only arise for fractional application-rate quantities, which are
outside the integer-restricted embedding.) -/
inductive SqlVal where
  | null
  | int (n : Int)
  | text (s : String)
deriving DecidableEq, Repr

/-- Conversion performed by the sqlite-wasm `bind` for the JavaScript
primitives that the worker binds: `undefined` and `null` bind as NULL,
booleans and numbers as INTEGER, strings as TEXT; objects and arrays are not
bindable and raise. -/
def bindVal (v : JVal) : Except String SqlVal :=
  match v with
  | .undefined => .ok .null
  | .null => .ok .null
  | .bool b => .ok (.int (if b then 1 else 0))
  | .num n => .ok (.int n)
  | .str s => .ok (.text s)
  | .arr _ => .error "Unsupported bind() argument type"
  | .obj _ => .error "Unsupported bind() argument type"

/-- SQLite INTEGER column affinity: text that is a complete integer numeral
(after trimming ASCII whitespace) is stored as INTEGER, any other text is
stored unchanged as TEXT. -/
def affInteger (v : SqlVal) : SqlVal :=
  match v with
  | .text s =>
    match exactIntOf ((jsTrim s).toList) with
    | some n => .int n
    | none => .text s
  | v => v

/-- SQLite TEXT column affinity: numbers are stored as their text form. -/
def affText (v : SqlVal) : SqlVal :=
  match v with
  | .int n => .text (toString n)
  | v => v

/-- SQL equality used in comparisons and constraint checks: NULL compares
equal to nothing (including NULL). -/
def sqlEqB (a b : SqlVal) : Bool :=
  match a, b with
  | .null, _ => false
  | _, .null => false
  | a, b => a = b

/-- SQLite `TRIM(x)`: NULL passes through, numbers are cast to text, text
loses leading and trailing spaces (only the space character). -/
def sqlTrim (v : SqlVal) : SqlVal :=
  match v with
  | .null => .null
  | .int n => .text (sqlTrimText (toString n))
  | .text s => .text (sqlTrimText s)

/-- SQLite `NULLIF(x, '')`. -/
def sqlNullifEmpty (v : SqlVal) : SqlVal :=
  match v with
  | .text s => if s = "" then .null else .text s
  | v => v

/-- SQLite `LOWER(x)`: NULL passes through, numbers are cast to text. -/
def sqlLower (v : SqlVal) : SqlVal :=
  match v with
  | .null => .null
  | .int n => .text (toString n)
  | .text s => .text (asciiLower s)

/-- SQLite `COALESCE`: first non-NULL argument. -/
def sqlCoalesce : List SqlVal → SqlVal
  | [] => .null
  | v :: rest => if v = .null then sqlCoalesce rest else v

/-- SQLite `CAST(x AS INTEGER)`: NULL passes through, text casts via its
leading integer numeral, defaulting to 0. -/
def sqlCastInt (v : SqlVal) : SqlVal :=
  match v with
  | .null => .null
  | .int n => .int n
  | .text s =>
    match leadingIntOf ((jsTrim s).toList) with
    | some n => .int n
    | none => .int 0

/-- SQLite `x LIKE '%needle%'` where `x` was already lowercased by the
query: NULL is never LIKE anything, numbers are cast to text. -/
def sqlLikeContains (v : SqlVal) (needle : String) : Bool :=
  match v with
  | .null => false
  | .int n => strContains (toString n) needle
  | .text s => strContains s needle

/-- Reading a SQLite cell back into JavaScript (sqlite-wasm exec callback
row values). -/
def sqlToJs (v : SqlVal) : JVal :=
  match v with
  | .null => .null
  | .int n => .num n
  | .text s => .str s

/-! ### JSON serialization and parsing -/

/-- JSON string escaping for the characters produced by the modelled data
(quote, backslash and the common control characters). -/
def renderStringChars : List Char → String
  | [] => ""
  | c :: rest =>
    (if c = '"' then "\\\""
     else if c = '\\' then "\\\\"
     else if c = '\n' then "\\n"
     else if c = '\t' then "\\t"
     else if c = '\r' then "\\r"
     else String.mk [c]) ++ renderStringChars rest

/-- JSON rendering of a string literal. -/
def renderString (s : String) : String :=
  "\"" ++ renderStringChars s.toList ++ "\""

mutual

/-- JSON serialization, modelling `JSON.stringify` on the value shapes the
worker produces (no `undefined` properties occur in the modelled data). -/
def renderJson : JVal → String
  | .undefined => "null"
  | .null => "null"
  | .bool b => if b then "true" else "false"
  | .num n => toString n
  | .str s => renderString s
  | .arr elems => "[" ++ renderJsonList elems ++ "]"
  | .obj fields => "\x7b" ++ renderJsonFields fields ++ "\x7d"

/-- Comma-joined serialization of array elements. -/
def renderJsonList : List JVal → String
  | [] => ""
  | [v] => renderJson v
  | v :: rest => renderJson v ++ "," ++ renderJsonList rest

/-- Comma-joined serialization of object members. -/
def renderJsonFields : List (String × JVal) → String
  | [] => ""
  | [kv] => renderString kv.1 ++ ":" ++ renderJson kv.2
  | kv :: rest => renderString kv.1 ++ ":" ++ renderJson kv.2 ++ "," ++ renderJsonFields rest

end

/-- Skip JSON whitespace. -/
def skipJsonWs (cs : List Char) : List Char :=
  cs.dropWhile (fun c => c = ' ' || c = '\t' || c = '\n' || c = '\r')

/-- Parse a JSON string body after the opening quote; returns the text and
the remainder after the closing quote.  Handles the simple escapes; unicode
escapes are outside the embedding. -/
def parseJsonStringBody (fuel : Nat) (cs : List Char) : Option (String × List Char) :=
  match fuel with
  | 0 => none
  | fuel + 1 =>
    match cs with
    | [] => none
    | '"' :: rest => some ("", rest)
    | '\\' :: e :: rest =>
      let c? : Option Char :=
        if e = '"' then some '"'
        else if e = '\\' then some '\\'
        else if e = '/' then some '/'
        else if e = 'n' then some '\n'
        else if e = 't' then some '\t'
        else if e = 'r' then some '\r'
        else none
      match c? with
      | none => none
      | some c =>
        match parseJsonStringBody fuel rest with
        | some (s, rem) => some (String.mk (c :: s.toList), rem)
        | none => none
    | c :: rest =>
      match parseJsonStringBody fuel rest with
      | some (s, rem) => some (String.mk (c :: s.toList), rem)
      | none => none

mutual

/-- Fuel-driven recursive-descent JSON value parser.  Numbers are restricted
to integer numerals (a fractional or exponent numeral fails the parse; such
payloads are outside the embedding). -/
def parseJsonVal (fuel : Nat) (cs : List Char) : Option (JVal × List Char) :=
  match fuel with
  | 0 => none
  | fuel + 1 =>
    match skipJsonWs cs with
    | 'n' :: 'u' :: 'l' :: 'l' :: rest => some (.null, rest)
    | 't' :: 'r' :: 'u' :: 'e' :: rest => some (.bool true, rest)
    | 'f' :: 'a' :: 'l' :: 's' :: 'e' :: rest => some (.bool false, rest)
    | '"' :: rest =>
      match parseJsonStringBody fuel rest with
      | some (s, rem) => some (.str s, rem)
      | none => none
    | '[' :: rest =>
      match skipJsonWs rest with
      | ']' :: rem => some (.arr [], rem)
      | _ =>
        match parseJsonElems fuel rest with
        | some (elems, rem) => some (.arr elems, rem)
        | none => none
    | '\x7b' :: rest =>
      match skipJsonWs rest with
      | '\x7d' :: rem => some (.obj [], rem)
      | _ =>
        match parseJsonMembers fuel rest with
        | some (fields, rem) => some (.obj fields, rem)
        | none => none
    | '-' :: rest =>
      let ds := rest.takeWhile Char.isDigit
      let rem := rest.dropWhile Char.isDigit
      if ds.isEmpty then none
      else
        match rem with
        | '.' :: _ => none
        | 'e' :: _ => none
        | 'E' :: _ => none
        | _ => some (.num (-(digitsToNat ds : Int)), rem)
    | c :: rest =>
      if c.isDigit then
        let ds := (c :: rest).takeWhile Char.isDigit
        let rem := (c :: rest).dropWhile Char.isDigit
        match rem with
        | '.' :: _ => none
        | 'e' :: _ => none
        | 'E' :: _ => none
        | _ => some (.num (digitsToNat ds : Int), rem)
      else none
    | [] => none

/-- Parse one or more comma-separated array elements and the closing
bracket. -/
def parseJsonElems (fuel : Nat) (cs : List Char) : Option (List JVal × List Char) :=
  match fuel with
  | 0 => none
  | fuel + 1 =>
    match parseJsonVal fuel cs with
    | none => none
    | some (v, rest) =>
      match skipJsonWs rest with
      | ',' :: more =>
        match parseJsonElems fuel more with
        | some (vs, rem) => some (v :: vs, rem)
        | none => none
      | ']' :: rem => some ([v], rem)
      | _ => none

/-- Parse one or more comma-separated object members and the closing
brace. -/
def parseJsonMembers (fuel : Nat) (cs : List Char) : Option (List (String × JVal) × List Char) :=
  match fuel with
  | 0 => none
  | fuel + 1 =>
    match skipJsonWs cs with
    | '"' :: rest =>
      match parseJsonStringBody fuel rest with
      | none => none
      | some (k, afterKey) =>
        match skipJsonWs afterKey with
        | ':' :: afterColon =>
          match parseJsonVal fuel afterColon with
          | none => none
          | some (v, rest2) =>
            match skipJsonWs rest2 with
            | ',' :: more =>
              match parseJsonMembers fuel more with
              | some (fields, rem) => some ((k, v) :: fields, rem)
              | none => none
            | '\x7d' :: rem => some ([(k, v)], rem)
            | _ => none
        | _ => none
    | _ => none

end

/-- Parse a complete JSON document (trailing content other than whitespace
fails, as in `JSON.parse` and the SQLite json functions). -/
def jsonParse (s : String) : Option JVal :=
  match parseJsonVal (s.length * 2 + 8) s.toList with
  | some (v, rest) => if skipJsonWs rest = [] then some v else none
  | none => none

/-- Embedding of `safeJsonParse` (src/unnamed/part_000 lines 208 to 218):
NULL yields null, non-string cells are stringified first, parse failures
yield null.  The result is returned as the parsed JavaScript value, with
`none` for the null result. -/
def safeJsonParse (v : SqlVal) : Option JVal :=
  match v with
  | .null => none
  | .int n => jsonParse (toString n)
  | .text s => jsonParse s

/-- SQLite `json_valid(x)` for the modelled payload cells (NULL yields SQL
NULL, which behaves as not-true in the CASE guards where it occurs). -/
def sqlJsonValid (v : SqlVal) : Bool :=
  match v with
  | .null => false
  | .int _ => true
  | .text s => (jsonParse s).isSome

/-- SQL value of a parsed JSON member: JSON null maps to SQL NULL, booleans
to 0/1, numbers to INTEGER, strings to TEXT, arrays and objects to their
JSON text. -/
def jsonMemberToSql (v : JVal) : SqlVal :=
  match v with
  | .undefined => .null
  | .null => .null
  | .bool b => .int (if b then 1 else 0)
  | .num n => .int n
  | .str s => .text s
  | .arr elems => .text (renderJson (.arr elems))
  | .obj fields => .text (renderJson (.obj fields))

/-- SQLite `json_extract(x, '$.k')` for the modelled payload cells.  A
malformed JSON text raises an error in SQLite; the model returns NULL
instead, and no modelled claim evaluates the expression on malformed
payloads. -/
def sqlJsonExtract (v : SqlVal) (k : String) : SqlVal :=
  match v with
  | .null => .null
  | .int _ => .null
  | .text s =>
    match jsonParse s with
    | some (.obj fields) =>
      match fields.find? (fun kv => kv.1 = k) with
      | some kv => jsonMemberToSql kv.2
      | none => .null
    | _ => .null


/-! ### Schema migrator (applySchema, src/unnamed/part_000 lines 641 to 861) -/

/-- Persisted schema state visible to the migrator: the `PRAGMA
user_version` counter and the set of tables, represented as a duplicate-free
name list. -/
structure DbSchema where
  userVersion : Nat
  tables : List String
deriving DecidableEq, Repr

/-- CREATE TABLE IF NOT EXISTS on the name set. -/
def addTable (tables : List String) (name : String) : List String :=
  if name ∈ tables then tables else tables ++ [name]

/-- DROP TABLE IF EXISTS on the name set. -/
def removeTable (tables : List String) (name : String) : List String :=
  tables.filter (fun t => t ≠ name)

/-- Tables created by the version-1 base schema. -/
def baseTables : List String :=
  ["meta", "measurement_methods", "mediums", "history", "history_items"]

/-- Tables dropped at the start of the version-2 migration. -/
def bvlDropList : List String :=
  ["bvl_lookup_schadorg", "bvl_lookup_kultur", "bvl_awg_wartezeit",
   "bvl_awg_aufwand", "bvl_awg_schadorg", "bvl_awg_kultur", "bvl_awg",
   "bvl_mittel", "bvl_meta", "bvl_sync_log"]

/-- Tables created by the version-2 migration, in creation order. -/
def bvlCreateList : List String :=
  ["bvl_meta", "bvl_mittel", "bvl_awg", "bvl_awg_kultur", "bvl_awg_schadorg",
   "bvl_awg_aufwand", "bvl_awg_wartezeit", "bvl_sync_log",
   "bvl_lookup_kultur", "bvl_lookup_schadorg"]

/-- Embedding of `applySchema` (src/unnamed/part_000 lines 641 to 861).  The
persisted version is read once up front; each step runs only when that
initial version is below its target and ends by setting `user_version` to
the target.  Version 1 creates the base tables with IF NOT EXISTS; version 2
drops every BVL table and recreates the BVL schema; version 3 only bumps the
counter; version 4 drops the legacy `bvl_mittel_extras` table.  The
individual steps cannot fail on the modelled state (every create is preceded
by a matching drop or guarded by IF NOT EXISTS), so the rollback branches of
the source are unreachable here and the function is total. -/
def applySchema (s : DbSchema) : DbSchema :=
  let v := s.userVersion
  let s1 := if v = 0 then
    ({ userVersion := 1, tables := baseTables.foldl addTable s.tables } : DbSchema)
  else s
  let s2 := if v < 2 then
    ({ userVersion := 2,
       tables := (bvlDropList.foldl removeTable s1.tables) ++ bvlCreateList } : DbSchema)
  else s1
  let s3 := if v < 3 then { s2 with userVersion := 3 } else s2
  let s4 := if v < 4 then
    ({ userVersion := 4, tables := removeTable s3.tables "bvl_mittel_extras" } : DbSchema)
  else s3
  s4


/-! ### BVL table rows and database state (version-2 schema) -/

/-- Row of `bvl_mittel` (kennr TEXT PRIMARY KEY, name TEXT, formulierung
TEXT, zul_erstmalig TEXT, zul_ende TEXT, geringes_risiko INTEGER,
payload_json TEXT). -/
structure MittelRow where
  kennr : SqlVal
  name : SqlVal
  formulierung : SqlVal
  zul_erstmalig : SqlVal
  zul_ende : SqlVal
  geringes_risiko : SqlVal
  payload_json : SqlVal
deriving DecidableEq, Repr

/-- Row of `bvl_awg` (awg_id TEXT PRIMARY KEY, kennr TEXT REFERENCES
bvl_mittel ON DELETE CASCADE, status_json TEXT, zulassungsende TEXT). -/
structure AwgRow where
  awg_id : SqlVal
  kennr : SqlVal
  status_json : SqlVal
  zulassungsende : SqlVal
deriving DecidableEq, Repr

/-- Row of `bvl_awg_kultur` (awg_id REFERENCES bvl_awg, kultur TEXT,
ausgenommen INTEGER, sortier_nr INTEGER, PRIMARY KEY (awg_id, kultur,
ausgenommen)). -/
structure KulturRow where
  awg_id : SqlVal
  kultur : SqlVal
  ausgenommen : SqlVal
  sortier_nr : SqlVal
deriving DecidableEq, Repr

/-- Row of `bvl_awg_schadorg` (awg_id REFERENCES bvl_awg, schadorg TEXT,
ausgenommen INTEGER, sortier_nr INTEGER, PRIMARY KEY (awg_id, schadorg,
ausgenommen)). -/
structure SchadorgRow where
  awg_id : SqlVal
  schadorg : SqlVal
  ausgenommen : SqlVal
  sortier_nr : SqlVal
deriving DecidableEq, Repr

/-- Row of `bvl_awg_aufwand` (PRIMARY KEY (awg_id, aufwand_bedingung,
sortier_nr)). -/
structure AufwandRow where
  awg_id : SqlVal
  aufwand_bedingung : SqlVal
  sortier_nr : SqlVal
  mittel_menge : SqlVal
  mittel_einheit : SqlVal
  wasser_menge : SqlVal
  wasser_einheit : SqlVal
  payload_json : SqlVal
deriving DecidableEq, Repr

/-- Row of `bvl_awg_wartezeit` (PRIMARY KEY (awg_wartezeit_nr, awg_id)). -/
structure WartezeitRow where
  awg_wartezeit_nr : SqlVal
  awg_id : SqlVal
  kultur : SqlVal
  sortier_nr : SqlVal
  tage : SqlVal
  bemerkung_kode : SqlVal
  anwendungsbereich : SqlVal
  erlaeuterung : SqlVal
  payload_json : SqlVal
deriving DecidableEq, Repr

/-- Row of the lookup tables `bvl_lookup_kultur` and `bvl_lookup_schadorg`
(code TEXT PRIMARY KEY, label TEXT). -/
structure LookupRow where
  code : SqlVal
  label : SqlVal
deriving DecidableEq, Repr

/-- Row of `bvl_sync_log` (the INTEGER PRIMARY KEY AUTOINCREMENT id is
implicit in the list position: rows are only ever appended). -/
structure SyncLogRow where
  synced_at : SqlVal
  ok : SqlVal
  message : SqlVal
  payload_hash : SqlVal
deriving DecidableEq, Repr

/-- The BVL portion of the worker database under the version-2 schema,
together with `bvl_meta` (key TEXT PRIMARY KEY, value TEXT). -/
structure BvlDb where
  mittel : List MittelRow
  awg : List AwgRow
  awg_kultur : List KulturRow
  awg_schadorg : List SchadorgRow
  awg_aufwand : List AufwandRow
  awg_wartezeit : List WartezeitRow
  lookup_kultur : List LookupRow
  lookup_schadorg : List LookupRow
  sync_log : List SyncLogRow
  meta : List (String × SqlVal)
deriving DecidableEq, Repr

/-- The freshly migrated database: every table empty. -/
def emptyBvlDb : BvlDb :=
  ⟨[], [], [], [], [], [], [], [], [], []⟩

/-! ### Bulk dataset importer (importBvlDataset, src/unnamed/part_000 lines 1444 to 1669) -/

/-- SQLite REAL column affinity, restricted to the integral embedding:
integer-numeral text converts, other values pass through. -/
def affReal (v : SqlVal) : SqlVal :=
  affInteger v

/-- Reading a table property of the dataset payload: the per-table loop of
the importer runs only for a truthy value with positive length, which for
the modelled payloads means a non-empty array (an empty or missing table is
skipped, leaving the table cleared). -/
def datasetItems (payload : JVal) (k : String) : List JVal :=
  match payload.member k with
  | .arr elems => elems
  | _ => []

/-- Bind and affinity-convert one `bvl_mittel` dataset item in the column
order of the prepared INSERT OR REPLACE statement. -/
def mittelRowOfItem (item : JVal) : Except String MittelRow := do
  let kennr ← bindVal (item.member "kennr")
  let name ← bindVal (item.member "name")
  let formulierung ← bindVal (item.member "formulierung")
  let zulErstmalig ← bindVal (item.member "zul_erstmalig")
  let zulEnde ← bindVal (item.member "zul_ende")
  let geringesRisiko ← bindVal (item.member "geringes_risiko")
  let payloadJson ← bindVal (item.member "payload_json")
  .ok ⟨affText kennr, affText name, affText formulierung, affText zulErstmalig,
       affText zulEnde, affInteger geringesRisiko, affText payloadJson⟩

/-- Bind and affinity-convert one `bvl_awg` dataset item. -/
def awgRowOfItem (item : JVal) : Except String AwgRow := do
  let awgId ← bindVal (item.member "awg_id")
  let kennr ← bindVal (item.member "kennr")
  let statusJson ← bindVal (item.member "status_json")
  let zulassungsende ← bindVal (item.member "zulassungsende")
  .ok ⟨affText awgId, affText kennr, affText statusJson, affText zulassungsende⟩

/-- Bind and affinity-convert one `bvl_awg_kultur` dataset item. -/
def kulturRowOfItem (item : JVal) : Except String KulturRow := do
  let awgId ← bindVal (item.member "awg_id")
  let kultur ← bindVal (item.member "kultur")
  let ausgenommen ← bindVal (item.member "ausgenommen")
  let sortierNr ← bindVal (item.member "sortier_nr")
  .ok ⟨affText awgId, affText kultur, affInteger ausgenommen, affInteger sortierNr⟩

/-- Bind and affinity-convert one `bvl_awg_schadorg` dataset item. -/
def schadorgRowOfItem (item : JVal) : Except String SchadorgRow := do
  let awgId ← bindVal (item.member "awg_id")
  let schadorg ← bindVal (item.member "schadorg")
  let ausgenommen ← bindVal (item.member "ausgenommen")
  let sortierNr ← bindVal (item.member "sortier_nr")
  .ok ⟨affText awgId, affText schadorg, affInteger ausgenommen, affInteger sortierNr⟩

/-- Bind and affinity-convert one `bvl_awg_aufwand` dataset item. -/
def aufwandRowOfItem (item : JVal) : Except String AufwandRow := do
  let awgId ← bindVal (item.member "awg_id")
  let bedingung ← bindVal (item.member "aufwand_bedingung")
  let sortierNr ← bindVal (item.member "sortier_nr")
  let mittelMenge ← bindVal (item.member "mittel_menge")
  let mittelEinheit ← bindVal (item.member "mittel_einheit")
  let wasserMenge ← bindVal (item.member "wasser_menge")
  let wasserEinheit ← bindVal (item.member "wasser_einheit")
  let payloadJson ← bindVal (item.member "payload_json")
  .ok ⟨affText awgId, affText bedingung, affInteger sortierNr, affReal mittelMenge,
       affText mittelEinheit, affReal wasserMenge, affText wasserEinheit,
       affText payloadJson⟩

/-- Bind and affinity-convert one `bvl_awg_wartezeit` dataset item. -/
def wartezeitRowOfItem (item : JVal) : Except String WartezeitRow := do
  let nr ← bindVal (item.member "awg_wartezeit_nr")
  let awgId ← bindVal (item.member "awg_id")
  let kultur ← bindVal (item.member "kultur")
  let sortierNr ← bindVal (item.member "sortier_nr")
  let tage ← bindVal (item.member "tage")
  let bemerkungKode ← bindVal (item.member "bemerkung_kode")
  let anwendungsbereich ← bindVal (item.member "anwendungsbereich")
  let erlaeuterung ← bindVal (item.member "erlaeuterung")
  let payloadJson ← bindVal (item.member "payload_json")
  .ok ⟨affInteger nr, affText awgId, affText kultur, affInteger sortierNr,
       affInteger tage, affText bemerkungKode, affText anwendungsbereich,
       affText erlaeuterung, affText payloadJson⟩

/-- Bind and affinity-convert one lookup-table dataset item. -/
def lookupRowOfItem (item : JVal) : Except String LookupRow := do
  let code ← bindVal (item.member "code")
  let label ← bindVal (item.member "label")
  .ok ⟨affText code, affText label⟩

/-- INSERT OR REPLACE into `bvl_mittel`: a row with the same non-NULL kennr
is replaced.  (During the import the child tables are still empty, so the
implicit delete of REPLACE never cascades here.) -/
def replaceMittel (tbl : List MittelRow) (r : MittelRow) : List MittelRow :=
  tbl.filter (fun x => !sqlEqB x.kennr r.kennr) ++ [r]

/-- INSERT OR REPLACE into `bvl_awg` with the immediate foreign-key check
against `bvl_mittel` (a NULL parent reference satisfies the constraint). -/
def insertAwg (mittelTbl : List MittelRow) (tbl : List AwgRow) (r : AwgRow) :
    Except String (List AwgRow) :=
  if r.kennr = .null || mittelTbl.any (fun m => sqlEqB m.kennr r.kennr) then
    .ok (tbl.filter (fun x => !sqlEqB x.awg_id r.awg_id) ++ [r])
  else
    .error "FOREIGN KEY constraint failed"

/-- INSERT OR REPLACE into `bvl_awg_kultur` with the foreign-key check
against `bvl_awg`; the replace key is the composite primary key. -/
def insertKultur (awgTbl : List AwgRow) (tbl : List KulturRow) (r : KulturRow) :
    Except String (List KulturRow) :=
  if r.awg_id = .null || awgTbl.any (fun a => sqlEqB a.awg_id r.awg_id) then
    .ok (tbl.filter (fun x =>
      !(sqlEqB x.awg_id r.awg_id && sqlEqB x.kultur r.kultur &&
        sqlEqB x.ausgenommen r.ausgenommen)) ++ [r])
  else
    .error "FOREIGN KEY constraint failed"

/-- INSERT OR REPLACE into `bvl_awg_schadorg`. -/
def insertSchadorg (awgTbl : List AwgRow) (tbl : List SchadorgRow) (r : SchadorgRow) :
    Except String (List SchadorgRow) :=
  if r.awg_id = .null || awgTbl.any (fun a => sqlEqB a.awg_id r.awg_id) then
    .ok (tbl.filter (fun x =>
      !(sqlEqB x.awg_id r.awg_id && sqlEqB x.schadorg r.schadorg &&
        sqlEqB x.ausgenommen r.ausgenommen)) ++ [r])
  else
    .error "FOREIGN KEY constraint failed"

/-- INSERT OR REPLACE into `bvl_awg_aufwand`. -/
def insertAufwand (awgTbl : List AwgRow) (tbl : List AufwandRow) (r : AufwandRow) :
    Except String (List AufwandRow) :=
  if r.awg_id = .null || awgTbl.any (fun a => sqlEqB a.awg_id r.awg_id) then
    .ok (tbl.filter (fun x =>
      !(sqlEqB x.awg_id r.awg_id && sqlEqB x.aufwand_bedingung r.aufwand_bedingung &&
        sqlEqB x.sortier_nr r.sortier_nr)) ++ [r])
  else
    .error "FOREIGN KEY constraint failed"

/-- INSERT OR REPLACE into `bvl_awg_wartezeit`. -/
def insertWartezeit (awgTbl : List AwgRow) (tbl : List WartezeitRow) (r : WartezeitRow) :
    Except String (List WartezeitRow) :=
  if r.awg_id = .null || awgTbl.any (fun a => sqlEqB a.awg_id r.awg_id) then
    .ok (tbl.filter (fun x =>
      !(sqlEqB x.awg_wartezeit_nr r.awg_wartezeit_nr && sqlEqB x.awg_id r.awg_id)) ++ [r])
  else
    .error "FOREIGN KEY constraint failed"

/-- INSERT OR REPLACE into a lookup table, keyed by the code column. -/
def replaceLookup (tbl : List LookupRow) (r : LookupRow) : List LookupRow :=
  tbl.filter (fun x => !sqlEqB x.code r.code) ++ [r]

/-- The eight tables replaced by a dataset import. -/
structure ImportedTables where
  mittel : List MittelRow
  awg : List AwgRow
  awg_kultur : List KulturRow
  awg_schadorg : List SchadorgRow
  awg_aufwand : List AufwandRow
  awg_wartezeit : List WartezeitRow
  lookup_kultur : List LookupRow
  lookup_schadorg : List LookupRow
deriving DecidableEq, Repr

/-- The transaction body of `importBvlDataset`: after the initial DELETEs
the eight tables are empty, so the imported contents depend only on the
dataset payload.  Tables are filled in the source order (parents before
children), each row via bind plus INSERT OR REPLACE, stopping at the first
error. -/
def importBvlTables (payload : JVal) : Except String ImportedTables := do
  let mittelTbl ← (datasetItems payload "mittel").foldlM
    (fun acc item => do
      let r ← mittelRowOfItem item
      .ok (replaceMittel acc r)) []
  let awgTbl ← (datasetItems payload "awg").foldlM
    (fun acc item => do
      let r ← awgRowOfItem item
      insertAwg mittelTbl acc r) []
  let kulturTbl ← (datasetItems payload "awg_kultur").foldlM
    (fun acc item => do
      let r ← kulturRowOfItem item
      insertKultur awgTbl acc r) []
  let schadorgTbl ← (datasetItems payload "awg_schadorg").foldlM
    (fun acc item => do
      let r ← schadorgRowOfItem item
      insertSchadorg awgTbl acc r) []
  let aufwandTbl ← (datasetItems payload "awg_aufwand").foldlM
    (fun acc item => do
      let r ← aufwandRowOfItem item
      insertAufwand awgTbl acc r) []
  let wartezeitTbl ← (datasetItems payload "awg_wartezeit").foldlM
    (fun acc item => do
      let r ← wartezeitRowOfItem item
      insertWartezeit awgTbl acc r) []
  let lookupKulturTbl ← (datasetItems payload "culturesLookup").foldlM
    (fun acc item => do
      let r ← lookupRowOfItem item
      .ok (replaceLookup acc r)) []
  let lookupSchadorgTbl ← (datasetItems payload "pestsLookup").foldlM
    (fun acc item => do
      let r ← lookupRowOfItem item
      .ok (replaceLookup acc r)) []
  .ok ⟨mittelTbl, awgTbl, kulturTbl, schadorgTbl, aufwandTbl, wartezeitTbl,
       lookupKulturTbl, lookupSchadorgTbl⟩

/-- Embedding of `importBvlDataset` (src/unnamed/part_000 lines 1444 to
1669): one transaction that clears the eight tables and refills them from
the payload; COMMIT keeps the computed state, any error ROLLBACKs to the
original state and surfaces the error.  The returned per-table counts are
not modelled. -/
def importBvlDataset (db : BvlDb) (payload : JVal) : BvlDb × Except String Unit :=
  match importBvlTables payload with
  | .ok t =>
    ({ db with
        mittel := t.mittel, awg := t.awg, awg_kultur := t.awg_kultur,
        awg_schadorg := t.awg_schadorg, awg_aufwand := t.awg_aufwand,
        awg_wartezeit := t.awg_wartezeit, lookup_kultur := t.lookup_kultur,
        lookup_schadorg := t.lookup_schadorg }, .ok ())
  | .error e => (db, .error e)

/-! ### Synonym query builder: queryZulassung (src/unnamed/part_000 lines 1995 to 2539)

The SQL text of `queryZulassung` is assembled at runtime from the
introspected column lists.  Under the version-2 schema (the schema every
modelled database has), `bvl_mittel` has the columns kennr, name,
formulierung, zul_erstmalig, zul_ende, geringes_risiko, payload_json and
`bvl_awg` has awg_id, kennr, status_json, zulassungsende; the definitions
below are the source expressions specialized to exactly those column
presence tests (`mittelname` and `mittel_name` columns absent, mittel
payload present, awg payload absent). -/

/-- SELECT name expression: COALESCE over the trimmed name column, the three
payload name spellings plus the plain payload name, falling back to the
kennr. -/
def qzNameExpr (m : MittelRow) : SqlVal :=
  sqlCoalesce
    [sqlNullifEmpty (sqlTrim m.name),
     sqlNullifEmpty (sqlTrim (sqlJsonExtract m.payload_json "mittelname")),
     sqlNullifEmpty (sqlTrim (sqlJsonExtract m.payload_json "mittel_name")),
     sqlNullifEmpty (sqlTrim (sqlJsonExtract m.payload_json "mittelName")),
     sqlNullifEmpty (sqlTrim (sqlJsonExtract m.payload_json "name")),
     m.kennr]

/-- SELECT formulierung expression. -/
def qzFormulierungExpr (m : MittelRow) : SqlVal :=
  sqlCoalesce
    [sqlNullifEmpty (sqlTrim m.formulierung),
     sqlNullifEmpty (sqlTrim (sqlJsonExtract m.payload_json "formulierung")),
     sqlNullifEmpty (sqlTrim (sqlJsonExtract m.payload_json "formulierung_art"))]

/-- SELECT zul_ende expression (mittel column, awg column, payload
fallbacks). -/
def qzZulEndeExpr (m : MittelRow) (a : AwgRow) : SqlVal :=
  sqlCoalesce
    [sqlNullifEmpty (sqlTrim m.zul_ende),
     sqlNullifEmpty (sqlTrim a.zulassungsende),
     sqlNullifEmpty (sqlTrim (sqlJsonExtract m.payload_json "zul_ende")),
     sqlNullifEmpty (sqlTrim (sqlJsonExtract m.payload_json "zulassungsende")),
     sqlNullifEmpty (sqlTrim (sqlJsonExtract m.payload_json "gueltig_bis"))]

/-- CASE expression deriving the low-risk flag from the payload. -/
def qzGeringesCase (payload : SqlVal) : SqlVal :=
  if sqlJsonValid payload then
    if sqlCastInt (sqlJsonExtract payload "mittel_mit_geringem_risiko") = .int 1 then .int 1
    else
      match sqlLower (sqlJsonExtract payload "mittel_mit_geringem_risiko") with
      | .text s => if s = "true" || s = "ja" then .int 1 else .int 0
      | _ => .int 0
  else .int 0

/-- SELECT geringes_risiko expression: COALESCE of the column, the payload
CASE and 0. -/
def qzGeringesExpr (m : MittelRow) : SqlVal :=
  sqlCoalesce [m.geringes_risiko, qzGeringesCase m.payload_json, .int 0]

/-- One row of the main SELECT of queryZulassung (before the JavaScript
enrichment pass). -/
structure QueryRow where
  kennr : SqlVal
  name : SqlVal
  formulierung : SqlVal
  zul_ende : SqlVal
  geringes_risiko : SqlVal
  awg_id : SqlVal
  status_payload : SqlVal
  awg_payload : SqlVal
  mittel_payload : SqlVal
deriving DecidableEq, Repr

/-- The SELECT tuple for one joined (mittel, awg) pair under the version-2
schema: status comes from `a.status_json`, the awg payload column is absent
(NULL) and the mittel payload column is selected verbatim. -/
def qzSelectRow (m : MittelRow) (a : AwgRow) : QueryRow :=
  ⟨m.kennr, qzNameExpr m, qzFormulierungExpr m, qzZulEndeExpr m a,
   qzGeringesExpr m, a.awg_id, a.status_json, .null, m.payload_json⟩

/-- LIKE test against an already lowercased SQL expression. -/
def likeLower (v : SqlVal) (needle : String) : Bool :=
  sqlLikeContains (sqlLower v) needle

/-- The regular expression `^[0-9a-z]+-[0-9a-z]+$` (applied after
lowercasing) deciding whether a mittel filter is treated as an exact
registration number. -/
def isKennrChar (c : Char) : Bool :=
  c.isDigit || ('a' ≤ c && c ≤ 'z')

/-- Exact-kennr test on the normalized filter string. -/
def isExactKennr (s : String) : Bool :=
  let cs := s.toList
  let a := cs.takeWhile (fun c => c ≠ '-')
  match cs.dropWhile (fun c => c ≠ '-') with
  | '-' :: b => !a.isEmpty && a.all isKennrChar && !b.isEmpty && b.all isKennrChar
  | _ => false

/-- Loose embedding of binding a filter value as a SQL parameter (the
modelled filters are strings or absent; an object or array filter would
raise in the real bind and is mapped to NULL here). -/
def bindLoose (v : JVal) : SqlVal :=
  match bindVal v with
  | .ok w => w
  | .error _ => .null

/-- LEFT JOIN of a lookup label for the text search: with no matching
lookup row the label side is IFNULL(NULL,'') = the empty string; otherwise
any matching row may satisfy the LIKE. -/
def leftLookupLabelLike (lookup : List LookupRow) (code : SqlVal) (term : String) : Bool :=
  let hits := lookup.filter (fun lk => sqlEqB lk.code code)
  if hits.isEmpty then strContains "" term
  else hits.any (fun lk =>
    sqlLikeContains (sqlLower (match lk.label with | .null => .text "" | v => v)) term)

/-- The free-text condition of queryZulassung for one joined pair: OR of
the kennr/name/payload LIKEs and the culture and pest EXISTS subqueries
(which also match against lookup labels). -/
def qzTextCond (db : BvlDb) (m : MittelRow) (a : AwgRow) (term : String) : Bool :=
  likeLower m.kennr term || likeLower m.name term ||
  likeLower (sqlJsonExtract m.payload_json "mittelname") term ||
  likeLower (sqlJsonExtract m.payload_json "mittel_name") term ||
  likeLower (sqlJsonExtract m.payload_json "mittelName") term ||
  db.awg_kultur.any (fun ak =>
    sqlEqB ak.awg_id a.awg_id &&
    (likeLower ak.kultur term || leftLookupLabelLike db.lookup_kultur ak.kultur term)) ||
  db.awg_schadorg.any (fun aso =>
    sqlEqB aso.awg_id a.awg_id &&
    (likeLower aso.schadorg term || leftLookupLabelLike db.lookup_schadorg aso.schadorg term))

/-- The mittel filter of queryZulassung: exact registration-number equality
when the normalized filter matches the kennr pattern, otherwise a LIKE over
kennr, the name column and the payload mittelname. -/
def qzMittelCond (m : MittelRow) (v : JVal) : Bool :=
  let normalized := asciiLower (jsTrim (jsString v))
  if isExactKennr normalized then
    sqlEqB (sqlLower m.kennr) (.text normalized)
  else
    likeLower m.kennr normalized || likeLower m.name normalized ||
    likeLower (sqlJsonExtract m.payload_json "mittelname") normalized

/-- The enriched result row returned to the caller.  The per-row sublists
(kulturen, schadorganismen, aufwaende, wartezeiten and the optional
wirkstoff/gefahr/vertrieb tables) are pure reads that neither add nor
remove result rows and are not modelled; the scalar fields the claims
quantify over are all present. -/
structure ResultRow where
  kennr : SqlVal
  name : String
  formulierung : Option String
  zul_ende : Option String
  geringes_risiko : Bool
  awg_id : SqlVal
  status_json : Option String
deriving DecidableEq, Repr

/-- The JavaScript enrichment pass of queryZulassung (src/unnamed/part_000
lines 2291 to 2374) for one selected row: payload re-resolution of name,
formulierung and expiry, boolean coercion of the low-risk flag and status
object assembly. -/
def enrichResult (r : QueryRow) : ResultRow :=
  let mittelPayload : JVal :=
    match safeJsonParse r.mittel_payload with | some j => j | none => .null
  let awgPayload : JVal :=
    match safeJsonParse r.awg_payload with | some j => j | none => .null
  let statusPayload : JVal :=
    match safeJsonParse r.status_payload with | some j => j | none => .null
  let resolvedName := pickFirstNonEmpty
    [sqlToJs r.name, mittelPayload.member "mittelname",
     mittelPayload.member "mittel_name", mittelPayload.member "mittelName",
     mittelPayload.member "name", sqlToJs r.kennr]
  let name := if jsTruthy resolvedName then jsString resolvedName
              else jsString (sqlToJs r.kennr)
  let resolvedForm := pickFirstNonEmpty
    [sqlToJs r.formulierung, mittelPayload.member "formulierung",
     mittelPayload.member "formulierung_art"]
  let formulierung : Option String :=
    match resolvedForm with
    | .null => none
    | .undefined => none
    | v => let t := jsTrim (jsString v); if t = "" then none else some t
  let resolvedExpiry := pickFirstNonEmpty
    [sqlToJs r.zul_ende, awgPayload.member "zulassungsende",
     awgPayload.member "gueltig_bis", mittelPayload.member "zul_ende",
     mittelPayload.member "zulassungsende", mittelPayload.member "gueltig_bis",
     mittelPayload.member "gueltigBis"]
  let zulEnde : Option String :=
    match resolvedExpiry with
    | .null => none
    | .undefined => none
    | v => some (jsString v)
  let g0 := toBooleanFlag (sqlToJs r.geringes_risiko)
  let g := if jsTruthy mittelPayload then
      max g0 (toBooleanFlag (mittelPayload.member "mittel_mit_geringem_risiko"))
    else g0
  let so1 := if !jsTruthy statusPayload then
      (match r.status_payload with
       | .text t => if jsTrim t = "" then statusPayload
                    else JVal.obj [("status", .str (jsTrim t))]
       | _ => statusPayload)
    else statusPayload
  let so2 := if !jsTruthy so1 && jsTruthy awgPayload then
      let statusText := pickFirstNonEmpty
        [awgPayload.member "status", awgPayload.member "status_text",
         awgPayload.member "status_bez", awgPayload.member "statustext"]
      let gueltigBis := pickFirstNonEmpty
        [awgPayload.member "gueltig_bis", awgPayload.member "zulassungsende",
         awgPayload.member "gueltigBis"]
      if jsTruthy statusText || jsTruthy gueltigBis then
        JVal.obj
          ((if jsTruthy statusText then [("status", statusText)] else []) ++
           (if jsTruthy gueltigBis then [("gueltig_bis", gueltigBis)] else []))
      else so1
    else so1
  let statusJson := if jsTruthy so2 then some (renderJson so2) else none
  ⟨r.kennr, name, formulierung, zulEnde, decide (g = 1), r.awg_id, statusJson⟩

/-- ORDER BY name COLLATE NOCASE: SQLite orders NULL before INTEGER before
TEXT, text case-insensitively. -/
def nocaseNameLE (a b : QueryRow) : Bool :=
  match a.name, b.name with
  | .null, _ => true
  | .int _, .null => false
  | .int x, .int y => decide (x ≤ y)
  | .int _, .text _ => true
  | .text _, .null => false
  | .text _, .int _ => false
  | .text x, .text y => !(decide (asciiLower y < asciiLower x))

/-- Ordered insertion used to model ORDER BY (any refinement of the SQLite
output order is acceptable; ties are unspecified there). -/
def insertSorted (le : α → α → Bool) (x : α) : List α → List α
  | [] => [x]
  | y :: ys => if le x y then x :: y :: ys else y :: insertSorted le x ys

/-- Insertion sort on a comparator. -/
def sortByB (le : α → α → Bool) : List α → List α
  | [] => []
  | x :: xs => insertSorted le x (sortByB le xs)

/-- The joined and filtered (mittel, awg) pairs of queryZulassung: the JOIN
on kennr, then the optional culture, pest, text and mittel filters and the
default not-expired filter (the EXISTS-style conditions of the added JOINs
coincide with the JOIN-plus-DISTINCT of the source because none of the
selected columns comes from the joined association tables). -/
def qzFilteredPairs (dateGE : SqlVal → Bool) (db : BvlDb) (payload : JVal) :
    List (MittelRow × AwgRow) :=
  let culture := payload.member "culture"
  let pest := payload.member "pest"
  let text := payload.member "text"
  let includeExpired := payload.member "includeExpired"
  let mittelV := payload.member "mittel"
  let pairs := db.mittel.flatMap (fun m =>
    (db.awg.filter (fun a => sqlEqB m.kennr a.kennr)).map (fun a => (m, a)))
  let pairs := if jsTruthy culture then
      pairs.filter (fun p => db.awg_kultur.any (fun ak =>
        sqlEqB ak.awg_id p.2.awg_id && sqlEqB ak.kultur (bindLoose culture)))
    else pairs
  let pairs := if jsTruthy pest then
      pairs.filter (fun p => db.awg_schadorg.any (fun aso =>
        sqlEqB aso.awg_id p.2.awg_id && sqlEqB aso.schadorg (bindLoose pest)))
    else pairs
  let pairs := if jsTruthy text then
      pairs.filter (fun p => qzTextCond db p.1 p.2 (asciiLower (jsString text)))
    else pairs
  let pairs := if jsTruthy mittelV then
      pairs.filter (fun p => qzMittelCond p.1 mittelV)
    else pairs
  if !jsTruthy includeExpired then
    pairs.filter (fun p =>
      qzZulEndeExpr p.1 p.2 = .null || dateGE (qzZulEndeExpr p.1 p.2))
  else pairs

/-- Embedding of `queryZulassung`: the filtered join, the SELECT
projection, duplicate removal (SELECT DISTINCT), ORDER BY the name alias
and the JavaScript enrichment pass.  The comparison
`DATE(x) >= DATE('now')` is abstracted by the `dateGE` parameter. -/
def queryZulassung (dateGE : SqlVal → Bool) (db : BvlDb) (payload : JVal) :
    List ResultRow :=
  let rows := ((qzFilteredPairs dateGE db payload).map (fun p => qzSelectRow p.1 p.2)).dedup
  (sortByB nocaseNameLE rows).map enrichResult

/-! ### listBvlMittel (src/unnamed/part_000 lines 2541 to 2684) -/

/-- The limit clamping of listBvlMittel: `Number(payload?.limit)` with NaN
and non-positive values defaulting to 500, then floored (the integral
embedding makes the floor the identity) and clamped into 1..5000. -/
def listBvlMittelLimit (payload : JVal) : Int :=
  let n := jsToNumber (payload.member "limit")
  let limit : Int :=
    match n with
    | none => 500
    | some v => if v ≤ 0 then 500 else v
  min (max limit 1) 5000

/-- One entry returned by listBvlMittel after payload resolution. -/
structure MittelEntry where
  kennr : SqlVal
  name : String
  formulierung : Option String
  zul_ende : Option String
deriving DecidableEq, Repr

/-- The JavaScript resolution pass of listBvlMittel for one selected mittel
row (under the version-2 schema the selected name, formulierung and
zul_ende aliases are the plain columns). -/
def listEntryOf (m : MittelRow) : MittelEntry :=
  let payload : JVal := match safeJsonParse m.payload_json with | some j => j | none => .null
  let resolvedName := pickFirstNonEmpty
    [sqlToJs m.name, payload.member "mittelname", payload.member "mittel_name",
     payload.member "mittelName", sqlToJs m.kennr]
  let name := if jsTruthy resolvedName then jsString resolvedName
              else jsString (sqlToJs m.kennr)
  let resolvedForm := pickFirstNonEmpty
    [sqlToJs m.formulierung, payload.member "formulierung",
     payload.member "formulierung_art"]
  let formulierung : Option String :=
    match resolvedForm with
    | .null => none
    | .undefined => none
    | v => let t := jsTrim (jsString v); if t = "" then none else some t
  let resolvedExpiry := pickFirstNonEmpty
    [sqlToJs m.zul_ende, payload.member "zul_ende", payload.member "zulassungsende",
     payload.member "gueltig_bis", payload.member "gueltigBis"]
  let zulEnde : Option String :=
    match resolvedExpiry with
    | .null => none
    | .undefined => none
    | v => some (jsString v)
  ⟨m.kennr, name, formulierung, zulEnde⟩

/-- ORDER BY name COLLATE NOCASE on the raw name column of a mittel row. -/
def mittelNameLE (a b : MittelRow) : Bool :=
  match a.name, b.name with
  | .null, _ => true
  | .int _, .null => false
  | .int x, .int y => decide (x ≤ y)
  | .int _, .text _ => true
  | .text _, .null => false
  | .text _, .int _ => false
  | .text x, .text y => !(decide (asciiLower y < asciiLower x))

/-- Embedding of `listBvlMittel`: optional LIKE search over kennr, name and
the payload name spellings, ordering by the raw name column, the clamped
LIMIT, then the payload resolution pass. -/
def listBvlMittel (db : BvlDb) (payload : JVal) : List MittelEntry :=
  let limit := listBvlMittelLimit payload
  let searchV := payload.member "search"
  let searchRaw := if jsTruthy searchV then jsTrim (jsString searchV) else ""
  let searchNormalized := asciiLower searchRaw
  let rows := db.mittel
  let rows := if searchRaw ≠ "" then
      rows.filter (fun m =>
        likeLower m.kennr searchNormalized || likeLower m.name searchNormalized ||
        likeLower (sqlJsonExtract m.payload_json "mittelname") searchNormalized ||
        likeLower (sqlJsonExtract m.payload_json "mittel_name") searchNormalized ||
        likeLower (sqlJsonExtract m.payload_json "mittelName") searchNormalized)
    else rows
  ((sortByB mittelNameLE rows).take limit.toNat).map listEntryOf

/-! ### Metadata and sync-log accessors (src/unnamed/part_000 lines 1929 to 1993) -/

/-- Embedding of `getBvlMeta`: value of a meta key, SQL NULL when absent. -/
def getBvlMeta (db : BvlDb) (k : String) : SqlVal :=
  match db.meta.find? (fun kv => kv.1 = k) with
  | some kv => kv.2
  | none => .null

/-- Embedding of `setBvlMeta`: INSERT OR REPLACE keyed on the meta key. -/
def setBvlMeta (db : BvlDb) (k : String) (v : SqlVal) : BvlDb :=
  { db with meta := db.meta.filter (fun kv => kv.1 ≠ k) ++ [(k, v)] }

/-- Embedding of `appendBvlSyncLog`: append one row to the autoincrement
sync log. -/
def appendSyncLogRow (db : BvlDb) (syncedAt : String) (okFlag : Int)
    (message : String) (hash : SqlVal) : BvlDb :=
  { db with sync_log := db.sync_log ++ [⟨.text syncedAt, .int okFlag, .text message, hash⟩] }

/-! ### Change-detection sync driver (src/assets/js/core/bvlSync.js lines 26 to 224) -/

/-- JavaScript `x || ''` style defaulting used throughout the transform. -/
def jsOrDefault (v : JVal) (d : JVal) : JVal :=
  jsOr v d

/-- JavaScript `parseInt(x) || 0` and `parseFloat(x) || 0`. -/
def parseIntOrZero (v : JVal) : JVal :=
  match jsParseInt v with
  | some n => .num n
  | none => .num 0

/-- Strict string comparison `x === 'J'` on a JavaScript value. -/
def jsIsStrJ (v : JVal) : Bool :=
  match v with
  | .str s => s = "J"
  | _ => false

/-- Transform of one raw mittel record (bvlSync.js lines 149 to 157). -/
def transformMittelItem (item : JVal) : JVal :=
  .obj [("kennr", jsOrDefault (item.member "kennr") (.str "")),
        ("name", jsOrDefault (item.member "mittelname") (.str "")),
        ("formulierung", jsOrDefault (item.member "formulierung") (.str "")),
        ("zul_erstmalig", jsOrDefault (item.member "zulassung_erstmalig") .null),
        ("zul_ende", jsOrDefault (item.member "zulassungsende") .null),
        ("geringes_risiko", .num (if jsIsStrJ (item.member "geringes_risiko") then 1 else 0)),
        ("payload_json", .str (renderJson item))]

/-- Transform of one raw awg record (bvlSync.js lines 162 to 171). -/
def transformAwgItem (item : JVal) : JVal :=
  .obj [("awg_id", jsOrDefault (item.member "awg_id") (.str "")),
        ("kennr", jsOrDefault (item.member "kennr") (.str "")),
        ("status_json", .str (renderJson (.obj
          [("status", jsOrDefault (item.member "status") (.str "")),
           ("wachsstadium_von", jsOrDefault (item.member "wachsstadium_von") (.str "")),
           ("wachsstadium_bis", jsOrDefault (item.member "wachsstadium_bis") (.str ""))]))),
        ("zulassungsende", jsOrDefault (item.member "zulassungsende") .null)]

/-- Transform of one raw awg_kultur record (bvlSync.js lines 176 to 181). -/
def transformKulturItem (item : JVal) : JVal :=
  .obj [("awg_id", jsOrDefault (item.member "awg_id") (.str "")),
        ("kultur", jsOrDefault (item.member "kultur") (.str "")),
        ("ausgenommen", .num (if jsIsStrJ (item.member "ausgenommen") then 1 else 0)),
        ("sortier_nr", jsOrDefault (item.member "sortier_nr") (.num 0))]

/-- Transform of one raw awg_schadorg record (bvlSync.js lines 186 to 191). -/
def transformSchadorgItem (item : JVal) : JVal :=
  .obj [("awg_id", jsOrDefault (item.member "awg_id") (.str "")),
        ("schadorg", jsOrDefault (item.member "schadorg") (.str "")),
        ("ausgenommen", .num (if jsIsStrJ (item.member "ausgenommen") then 1 else 0)),
        ("sortier_nr", jsOrDefault (item.member "sortier_nr") (.num 0))]

/-- Transform of one raw awg_aufwand record (bvlSync.js lines 196 to 205). -/
def transformAufwandItem (item : JVal) : JVal :=
  .obj [("awg_id", jsOrDefault (item.member "awg_id") (.str "")),
        ("aufwand_bedingung", jsOrDefault (item.member "aufwandbedingung") (.str "")),
        ("sortier_nr", jsOrDefault (item.member "sortier_nr") (.num 0)),
        ("mittel_menge", parseIntOrZero (item.member "mittel_menge")),
        ("mittel_einheit", jsOrDefault (item.member "mittel_einheit") (.str "")),
        ("wasser_menge", parseIntOrZero (item.member "wasser_menge")),
        ("wasser_einheit", jsOrDefault (item.member "wasser_einheit") (.str "")),
        ("payload_json", .str (renderJson item))]

/-- Transform of one raw awg_wartezeit record (bvlSync.js lines 210 to 220):
a missing or unparseable tage coerces to the number 0 via
`parseInt(item.tage) || 0`. -/
def transformWartezeitItem (item : JVal) : JVal :=
  .obj [("awg_wartezeit_nr", parseIntOrZero (item.member "awg_wartezeit_nr")),
        ("awg_id", jsOrDefault (item.member "awg_id") (.str "")),
        ("kultur", jsOrDefault (item.member "kultur") (.str "")),
        ("sortier_nr", jsOrDefault (item.member "sortier_nr") (.num 0)),
        ("tage", parseIntOrZero (item.member "tage")),
        ("bemerkung_kode", jsOrDefault (item.member "bemerkung") (.str "")),
        ("anwendungsbereich", jsOrDefault (item.member "anwendungsbereich") (.str "")),
        ("erlaeuterung", jsOrDefault (item.member "erlaeuterung") (.str "")),
        ("payload_json", .str (renderJson item))]

/-- One raw collection of the fetched payload: the transform maps an array,
anything else contributes the empty table. -/
def rawCollection (raw : JVal) (k : String) : List JVal :=
  match raw.member k with
  | .arr elems => elems
  | _ => []

/-- Embedding of `transformBvlData` (bvlSync.js lines 137 to 224): the six
regulatory collections are renamed and coerced into the importer layout. -/
def transformBvlData (raw : JVal) : JVal :=
  .obj [("mittel", .arr ((rawCollection raw "mittel").map transformMittelItem)),
        ("awg", .arr ((rawCollection raw "awg").map transformAwgItem)),
        ("awg_kultur", .arr ((rawCollection raw "awg_kultur").map transformKulturItem)),
        ("awg_schadorg", .arr ((rawCollection raw "awg_schadorg").map transformSchadorgItem)),
        ("awg_aufwand", .arr ((rawCollection raw "awg_aufwand").map transformAufwandItem)),
        ("awg_wartezeit", .arr ((rawCollection raw "awg_wartezeit").map transformWartezeitItem))]

/-- Embedding of `syncBvlData` (bvlSync.js lines 26 to 130).  The paginated
fetch of the six fixed endpoints is abstracted into the `fetched` argument
(error when any endpoint failed, carrying the formatted message), and the
stable content hash into the `hash` function argument.  On an unchanged
hash the driver only appends a no-change log row; on a changed hash it
transforms, imports, persists the new hash and timestamp metadata and
appends an updated log row; on any error it appends a failure log row.
The returned value is the result status string. -/
def syncBvlData (hash : JVal → String) (db : BvlDb) (fetched : Except String JVal)
    (now : String) : BvlDb × String :=
  match fetched with
  | .error e => (appendSyncLogRow db now 0 e .null, "failed")
  | .ok raw =>
    let lastHash := getBvlMeta db "lastSyncHash"
    let currentHash := hash raw
    let isSame := match lastHash with | .text s => decide (s = currentHash) | _ => false
    if isSame then
      (appendSyncLogRow db now 1 "no-change" (.text currentHash), "no-change")
    else
      match importBvlDataset db (transformBvlData raw) with
      | (db1, .ok ()) =>
        let db2 := setBvlMeta db1 "lastSyncHash" (.text currentHash)
        let db3 := setBvlMeta db2 "lastSyncIso" (.text now)
        (appendSyncLogRow db3 now 1 "updated" (.text currentHash), "updated")
      | (db1, .error e) => (appendSyncLogRow db1 now 0 e .null, "failed")

/-! ### Plain INSERT into bvl_awg_kultur (sqliteWorker.js lines 837 to 850)

The companion worker variant inserts culture associations with a plain
INSERT, so the composite primary key (awg_id, kultur, ausgenommen) of the
version-2 schema is enforced as a uniqueness constraint. -/

/-- Plain INSERT into `bvl_awg_kultur`: the immediate foreign-key check
against `bvl_awg`, then the composite-primary-key uniqueness check (rows
with a NULL key column never conflict, per SQLite), then the append. -/
def insertAwgKulturStrict (awgTbl : List AwgRow) (tbl : List KulturRow)
    (r : KulturRow) : Except String (List KulturRow) :=
  if !(r.awg_id = .null || awgTbl.any (fun a => sqlEqB a.awg_id r.awg_id)) then
    .error "FOREIGN KEY constraint failed"
  else if tbl.any (fun x =>
      sqlEqB x.awg_id r.awg_id && sqlEqB x.kultur r.kultur &&
      sqlEqB x.ausgenommen r.ausgenommen) then
    .error "UNIQUE constraint failed: bvl_awg_kultur.awg_id, bvl_awg_kultur.kultur, bvl_awg_kultur.ausgenommen"
  else
    .ok (tbl ++ [r])

/-! ### Foreign-instance importer (importBvlSqlite, src/unnamed/part_000 lines 1671 to 1927)

This operation enumerates tables dynamically, so its state is modelled
generically: a database is a name-keyed list of tables, a table carries its
column list, its primary-key columns (from the CREATE statement) and its
rows as column-to-value association lists. -/

/-- One generic row: column name to stored value. -/
abbrev GenRow := List (String × SqlVal)

/-- One generic table. -/
structure GenTable where
  columns : List String
  pk : List String
  rows : List GenRow
deriving DecidableEq, Repr

/-- A generic database instance. -/
abbrev GenDb := List (String × GenTable)

/-- Table lookup by name. -/
def lookupGen (gdb : GenDb) (name : String) : Option GenTable :=
  match gdb.find? (fun e => e.1 = name) with
  | some e => some e.2
  | none => none

/-- Apply a function to the named table (identity when absent). -/
def updateGen (gdb : GenDb) (name : String) (f : GenTable → GenTable) : GenDb :=
  gdb.map (fun e => if e.1 = name then (e.1, f e.2) else e)

/-- Value of a column in a generic row (NULL when the column is absent from
the row). -/
def genRowGet (row : GenRow) (c : String) : SqlVal :=
  match row.find? (fun kv => kv.1 = c) with
  | some kv => kv.2
  | none => .null

/-- Set a column of a generic row. -/
def genRowSet (row : GenRow) (c : String) (v : SqlVal) : GenRow :=
  row.filter (fun kv => kv.1 ≠ c) ++ [(c, v)]

/-- INSERT OR REPLACE into a generic row list: a conflicting row (all
primary-key columns non-NULL-equal) is removed first; a table without a
primary key never conflicts. -/
def genReplaceInto (pk : List String) (rows : List GenRow) (r : GenRow) : List GenRow :=
  (if pk.isEmpty then rows
   else rows.filter (fun old => !(pk.all (fun c => sqlEqB (genRowGet old c) (genRowGet r c))))) ++ [r]

/-- The `LIKE 'bvl_%'` table-name pattern: the literal prefix bvl, then one
arbitrary character (the underscore wildcard), then anything; LIKE compares
ASCII case-insensitively. -/
def likeBvlPattern (name : String) : Bool :=
  match (asciiLower name).toList with
  | 'b' :: 'v' :: 'l' :: _ :: _ => true
  | _ => false

/-- String ordering for ORDER BY name. -/
def strLE (a b : String) : Bool :=
  !(decide (b < a))

/-- One iteration of the per-table copy loop of importBvlSqlite: skip the
sync log, skip a remote table without columns, create the table locally
when absent (copying the remote shape), delete the local rows, and copy
every remote row restricted to the common columns via INSERT OR REPLACE; a
table with no common columns is left after the delete with nothing
copied.  Foreign keys are OFF for the whole import, so the inserts cannot
fail. -/
def processTable (remote : GenDb) (gdb : GenDb) (t : String) : GenDb :=
  if t = "bvl_sync_log" then gdb
  else
    match lookupGen remote t with
    | none => gdb
    | some rt =>
      if rt.columns.isEmpty then gdb
      else
        let gdb1 := match lookupGen gdb t with
          | some _ => gdb
          | none => gdb ++ [(t, ⟨rt.columns, rt.pk, []⟩)]
        let gdb2 := updateGen gdb1 t (fun tbl => { tbl with rows := [] })
        let mainCols := match lookupGen gdb2 t with | some tbl => tbl.columns | none => []
        let common := rt.columns.filter (fun c => mainCols.contains c)
        if common.isEmpty then gdb2
        else
          let newRows := rt.rows.map (fun row => common.map (fun c => (c, genRowGet row c)))
          updateGen gdb2 t (fun tbl =>
            { tbl with rows := newRows.foldl (genReplaceInto tbl.pk) tbl.rows })

/-- The row transform of `hydrateBvlMittelFromPayload` (src/unnamed/part_000
lines 863 to 953): one UPDATE whose assignments hydrate the name,
formulierung and approval-end columns from the payload (all right-hand
sides read the pre-update row), followed by a second UPDATE deriving the
low-risk flag.  The json extractions reference the payload_json column
directly; on a table lacking that column the real UPDATE would raise and
roll the import back (which also preserves the frame properties proved
below), while the model reads the absent column as NULL. -/
def hydrateMittelRow (cols : List String) (row : GenRow) : GenRow :=
  let has := fun (c : String) => cols.contains c
  let payload := genRowGet row "payload_json"
  let jx := fun (k : String) => sqlNullifEmpty (sqlTrim (sqlJsonExtract payload k))
  let upd1 : GenRow :=
    if has "name" then
      [("name", sqlCoalesce
        ([sqlNullifEmpty (sqlTrim (genRowGet row "name"))] ++
         (if has "mittelname" then [sqlNullifEmpty (sqlTrim (genRowGet row "mittelname"))] else []) ++
         [jx "mittelname", jx "mittel_name", jx "mittelName", genRowGet row "name"]))]
    else []
  let upd2 : GenRow :=
    if !has "name" && has "mittelname" then
      [("mittelname", sqlCoalesce
        [sqlNullifEmpty (sqlTrim (genRowGet row "mittelname")),
         jx "mittelname", jx "mittel_name", jx "mittelName",
         genRowGet row "mittelname"])]
    else []
  let updForm : GenRow :=
    if has "formulierung" || has "formulierung_art" then
      let target := if has "formulierung" then "formulierung" else "formulierung_art"
      [(target, sqlCoalesce
        [sqlNullifEmpty (sqlTrim (genRowGet row target)),
         jx "formulierung", jx "formulierung_art", genRowGet row target])]
    else []
  let updZul : GenRow :=
    if has "zul_ende" || has "zulassungsende" then
      let target := if has "zul_ende" then "zul_ende" else "zulassungsende"
      [(target, sqlCoalesce
        [sqlNullifEmpty (sqlTrim (genRowGet row target)),
         jx "zul_ende", jx "zulassungsende", genRowGet row target])]
    else []
  let row1 := (upd1 ++ upd2 ++ updForm ++ updZul).foldl
    (fun r kv => genRowSet r kv.1 kv.2) row
  if has "geringes_risiko" then
    genRowSet row1 "geringes_risiko" (sqlCoalesce
      [genRowGet row1 "geringes_risiko",
       qzGeringesCase (genRowGet row1 "payload_json"), .int 0])
  else row1

/-- Embedding of `hydrateBvlMittelFromPayload` on the generic state: the
UPDATE statements touch only the `bvl_mittel` table (a missing table has an
empty column list and the updates degenerate to the identity). -/
def hydrateGen (gdb : GenDb) : GenDb :=
  updateGen gdb "bvl_mittel" (fun tbl =>
    { tbl with rows := tbl.rows.map (hydrateMittelRow tbl.columns) })

/-- Storage form of a manifest metadata value: strings verbatim, anything
else stringified. -/
def metaStoreVal (v : JVal) : SqlVal :=
  match v with
  | .str s => .text s
  | v => .text (renderJson v)

/-- The manifest metadata update of importBvlSqlite (lines 1867 to 1899):
dataSource, lastSyncIso and lastSyncHash always, lastSyncCounts when the
manifest carries table counts, apiStand from the api_version or the build
timestamp; each upserted into `bvl_meta`.  A missing manifest skips the
block; a missing bvl_meta table makes the INSERT raise. -/
def applyManifestMeta (gdb : GenDb) (manifest : JVal) (nowIso : String) :
    Except String GenDb :=
  if !jsTruthy manifest then .ok gdb
  else
    let counts := match manifest.member "tables" with | .obj fs => fs | _ => []
    let entries : List (String × JVal) :=
      [("dataSource", .str ("pflanzenschutz-db@" ++ jsString (manifest.member "version"))),
       ("lastSyncIso", .str nowIso),
       ("lastSyncHash", jsOr (manifest.member "hash") (manifest.member "version"))] ++
      (if counts.isEmpty then [] else [("lastSyncCounts", JVal.str (renderJson (.obj counts)))]) ++
      (if jsTruthy (manifest.member "api_version") then
        [("apiStand", manifest.member "api_version")]
       else if jsTruthy (manifest.member "build") &&
               jsTruthy ((manifest.member "build").member "finished_at") then
        [("apiStand", (manifest.member "build").member "finished_at")]
       else [])
    match lookupGen gdb "bvl_meta" with
    | none => .error "no such table: bvl_meta"
    | some _ => .ok (entries.foldl (fun g kv =>
        updateGen g "bvl_meta" (fun tbl =>
          let newRow : GenRow := [("key", .text kv.1), ("value", metaStoreVal kv.2)]
          { tbl with rows := genReplaceInto tbl.pk tbl.rows newRow })) gdb)

/-- Embedding of `importBvlSqlite`: enumerate the remote tables matching
`bvl_%` in name order, copy each through `processTable` (the sync log is
skipped inside), hydrate the mittel columns, apply the manifest metadata
and run the integrity check (abstracted by `integrityOk`); COMMIT keeps the
computed state, any error ROLLBACKs to the original state. -/
def importBvlSqlite (db remote : GenDb) (manifest : JVal) (integrityOk : Bool)
    (nowIso : String) : GenDb × Except String Unit :=
  let bvlTables := sortByB strLE ((remote.filter (fun e => likeBvlPattern e.1)).map (fun e => e.1))
  let body : Except String GenDb := do
    let g1 := bvlTables.foldl (processTable remote) db
    let g2 := hydrateGen g1
    let g3 ← applyManifestMeta g2 manifest nowIso
    if integrityOk then .ok g3
    else .error "Database integrity check failed"
  match body with
  | .ok g => (g, .ok ())
  | .error e => (db, .error e)

/-! ### Concrete instances used by the claim witnesses -/

def c2FailPayload : JVal :=
  .obj [("awg", .arr [.obj [("awg_id", .str "A1"), ("kennr", .str "MISSING")]])]

def c2PreDb : BvlDb :=
  { emptyBvlDb with
    mittel := [⟨.text "OLD-1", .text "Old", .null, .null, .null, .null, .null⟩],
    sync_log := [⟨.text "t0", .int 1, .text "updated", .text "h"⟩] }

/-- The concrete dataset of the spec scenario: one mittel row carrying the
keys kennr, mittelname and geringes_risiko (the importer binds item.name
and item.payload_json, both absent, and binds the raw string J into the
INTEGER-affinity geringes_risiko column, where it stays TEXT), and one awg
row referencing it. -/
def c1Dataset : JVal :=
  .obj [("mittel", .arr [.obj
          [("kennr", .str "001-00"), ("mittelname", .str "TestMittel"),
           ("geringes_risiko", .str "J")]]),
        ("awg", .arr [.obj [("awg_id", .str "A1"), ("kennr", .str "001-00")]])]

def c4Hash : JVal → String := fun _ => "hash-0"

/-- Value of a JSON object member as produced by the parser. -/
def jsonField (fs : List (String × JVal)) (k : String) : Option JVal :=
  match fs.find? (fun kv => kv.1 = k) with
  | some kv => some kv.2
  | none => none

/-- The three payload spellings of the product display name, exactly one of
which carries the name string. -/
def nameOnlyInPayload (fs : List (String × JVal)) (s : String) : Prop :=
  (jsonField fs "mittelname" = some (.str s) ∧ jsonField fs "mittel_name" = none ∧
    jsonField fs "mittelName" = none) ∨
  (jsonField fs "mittelname" = none ∧ jsonField fs "mittel_name" = some (.str s) ∧
    jsonField fs "mittelName" = none) ∨
  (jsonField fs "mittelname" = none ∧ jsonField fs "mittel_name" = none ∧
    jsonField fs "mittelName" = some (.str s))

def c5Mittel : MittelRow :=
  ⟨.text "00A-01", .null, .null, .null, .null, .null,
   .text "\x7b\"mittel_name\":\" Foo \"\x7d"⟩

def c5Db : BvlDb :=
  { emptyBvlDb with
    mittel := [c5Mittel],
    awg := [⟨.text "AW1", .text "00A-01", .null, .null⟩] }

/-- Local database instance for the foreign-import witness: a sync log with
one row and an empty meta table. -/
def c10Db : GenDb :=
  [("bvl_sync_log", ⟨["id", "synced_at"], ["id"], [[("id", .int 1), ("synced_at", .text "t0")]]⟩),
   ("bvl_meta", ⟨["key", "value"], ["key"], []⟩)]

/-- Foreign database instance for the foreign-import witness: a mittel table
and a sync log that must not overwrite the local one. -/
def c10Remote : GenDb :=
  [("bvl_mittel", ⟨["kennr", "payload_json"], ["kennr"], [[("kennr", .text "X-1")]]⟩),
   ("bvl_sync_log", ⟨["id"], ["id"], [[("id", .int 99)]]⟩)]

/-! ### Helper lemmas: trimming, sorting, lookup -/

theorem dropWhile_append_of_all {α : Type} {p : α → Bool} {a l : List α}
    (h : ∀ c ∈ a, p c = true) :
    List.dropWhile p (a ++ l) = List.dropWhile p l := by
  induction a with
  | nil => rfl
  | cons c t ih =>
    have hc : p c = true := h c (by simp)
    simp only [List.cons_append, List.dropWhile_cons, hc, if_true]
    exact ih (fun x hx => h x (by simp [hx]))

theorem dropWhile_append_of_ne {α : Type} {p : α → Bool} {l₁ l₂ : List α}
    (h : List.dropWhile p l₁ ≠ []) :
    List.dropWhile p (l₁ ++ l₂) = List.dropWhile p l₁ ++ l₂ := by
  induction l₁ with
  | nil => simp at h
  | cons c t ih =>
    by_cases hc : p c = true
    · simp only [List.cons_append, List.dropWhile_cons, hc, if_true] at h ⊢
      exact ih h
    · simp only [List.cons_append, List.dropWhile_cons, hc]
      simp

theorem trimCharsList_decomp (p : Char → Bool) (l : List Char) :
    ∃ a b, (∀ c ∈ a, p c = true) ∧ (∀ c ∈ b, p c = true) ∧
      l = a ++ trimCharsList p l ++ b := by
  refine ⟨l.takeWhile p, ((l.dropWhile p).reverse.takeWhile p).reverse, ?_, ?_, ?_⟩
  · intro c hc; exact List.mem_takeWhile_imp hc
  · intro c hc
    rw [List.mem_reverse] at hc
    exact List.mem_takeWhile_imp hc
  · conv_lhs => rw [← List.takeWhile_append_dropWhile (p := p) (l := l)]
    rw [List.append_assoc]
    congr 1
    unfold trimCharsList
    conv_lhs => rw [← List.reverse_reverse (l.dropWhile p)]
    conv_lhs => rw [← List.takeWhile_append_dropWhile (p := p) (l := (l.dropWhile p).reverse)]
    rw [List.reverse_append]

theorem trimCharsList_pad {q : Char → Bool} {a b t : List Char}
    (ha : ∀ c ∈ a, q c = true) (hb : ∀ c ∈ b, q c = true) :
    trimCharsList q (a ++ t ++ b) = trimCharsList q t := by
  unfold trimCharsList
  rw [List.append_assoc, dropWhile_append_of_all ha]
  by_cases h : List.dropWhile q t = []
  · have ht : ∀ c ∈ t, q c = true := by
      rw [← List.dropWhile_eq_nil_iff]; exact h
    rw [dropWhile_append_of_all ht]
    have hball : List.dropWhile q b = [] := by
      rw [List.dropWhile_eq_nil_iff]; exact hb
    rw [hball, h]
  · rw [dropWhile_append_of_ne h, List.reverse_append,
      dropWhile_append_of_all (by intro c hc; rw [List.mem_reverse] at hc; exact hb c hc)]

theorem string_mk_eq_empty_iff (l : List Char) : String.mk l = "" ↔ l = [] := by
  constructor
  · intro h
    have : (String.mk l).data = ("" : String).data := by rw [h]
    simpa using this
  · intro h; rw [h]

theorem spaceChar_is_ws {c : Char} (h : (decide (c = ' ')) = true) :
    jsWhitespaceChar c = true := by
  have : c = ' ' := by simpa using h
  rw [this]; rfl

theorem jsTrim_sqlTrimText (s : String) : jsTrim (sqlTrimText s) = jsTrim s := by
  obtain ⟨a, b, ha, hb, hd⟩ := trimCharsList_decomp (fun c => decide (c = ' ')) s.toList
  have ha2 : ∀ c ∈ a, jsWhitespaceChar c = true := fun c hc => spaceChar_is_ws (ha c hc)
  have hb2 : ∀ c ∈ b, jsWhitespaceChar c = true := fun c hc => spaceChar_is_ws (hb c hc)
  unfold jsTrim sqlTrimText trimChars
  conv_rhs => rw [show s.toList = a ++ trimCharsList (fun c => decide (c = ' ')) s.toList ++ b from hd]
  rw [trimCharsList_pad ha2 hb2]
  rfl

theorem sqlTrimText_eq_empty {s : String} (h : sqlTrimText s = "") : jsTrim s = "" := by
  have h2 : trimCharsList (fun c => decide (c = ' ')) s.toList = [] := by
    have := (string_mk_eq_empty_iff (trimCharsList (fun c => decide (c = ' ')) s.toList)).1
    exact this h
  obtain ⟨a, b, ha, hb, hd⟩ := trimCharsList_decomp (fun c => decide (c = ' ')) s.toList
  rw [h2] at hd
  have ha2 : ∀ c ∈ a, jsWhitespaceChar c = true := fun c hc => spaceChar_is_ws (ha c hc)
  have hb2 : ∀ c ∈ b, jsWhitespaceChar c = true := fun c hc => spaceChar_is_ws (hb c hc)
  unfold jsTrim trimChars
  rw [show s.toList = a ++ ([] : List Char) ++ b from by simpa using hd]
  rw [trimCharsList_pad ha2 hb2]
  rfl

theorem sqlTrimText_ne_empty {s : String} (h : jsTrim s ≠ "") : sqlTrimText s ≠ "" :=
  fun hc => h (sqlTrimText_eq_empty hc)

theorem mem_insertSorted {α : Type} (le : α → α → Bool) (x y : α) (l : List α) :
    y ∈ insertSorted le x l ↔ y = x ∨ y ∈ l := by
  induction l with
  | nil => simp [insertSorted]
  | cons c t ih =>
    by_cases h : le x c = true
    · simp [insertSorted, h]
    · simp only [insertSorted, h, if_neg]
      simp [ih]
      tauto

theorem mem_sortByB {α : Type} (le : α → α → Bool) (y : α) (l : List α) :
    y ∈ sortByB le l ↔ y ∈ l := by
  induction l with
  | nil => simp [sortByB]
  | cons c t ih =>
    simp only [sortByB, mem_insertSorted, ih]
    simp

/-! ### Claim theorems -/

/-- C6: the truthy parser accepts exactly the positive numbers, boolean
true, and the strings whose trimmed lowercased form is one of "1", "true",
"ja", "yes", "y"; every other value (null, undefined, other strings,
booleans, arrays, objects) yields the false result 0, the only two outputs
being 0 and 1. -/
theorem toBooleanFlag_truthy_set (v : JVal) :
    (toBooleanFlag v = 1 ↔
      ((∃ n : Int, v = .num n ∧ 0 < n) ∨ v = .bool true ∨
       (∃ s, v = .str s ∧
         asciiLower (jsTrim s) ∈ (["1", "true", "ja", "yes", "y"] : List String)))) ∧
    (toBooleanFlag v = 0 ∨ toBooleanFlag v = 1) := by
  cases v with
  | undefined => simp [toBooleanFlag]
  | null => simp [toBooleanFlag]
  | bool b => cases b <;> simp [toBooleanFlag]
  | num n =>
    constructor
    · constructor
      · intro h
        left
        refine ⟨n, rfl, ?_⟩
        by_contra hn
        simp [toBooleanFlag, show ¬ n > 0 from hn] at h
      · rintro (⟨m, hm, hpos⟩ | h | ⟨s, hs, _⟩)
        · cases hm; simp [toBooleanFlag, hpos]
        · cases h
        · cases hs
    · by_cases h : n > 0 <;> simp [toBooleanFlag, h]
  | str s =>
    constructor
    · constructor
      · intro h
        right; right
        refine ⟨s, rfl, ?_⟩
        by_cases he : asciiLower (jsTrim s) = ""
        · simp [toBooleanFlag, he] at h
        · by_cases hm : asciiLower (jsTrim s) ∈ (["1", "true", "ja", "yes", "y"] : List String)
          · exact hm
          · simp [toBooleanFlag, he, hm] at h
      · rintro (⟨m, hm, _⟩ | h | ⟨w, hw, hmem⟩)
        · cases hm
        · cases h
        · cases hw
          have hne : asciiLower (jsTrim s) ≠ "" := by
            intro he; rw [he] at hmem; simp at hmem
          simp [toBooleanFlag, hne, hmem]
    · by_cases he : asciiLower (jsTrim s) = ""
      · simp [toBooleanFlag, he]
      · by_cases hm : asciiLower (jsTrim s) ∈ (["1", "true", "ja", "yes", "y"] : List String) <;>
          simp [toBooleanFlag, he, hm]
  | arr elems => simp [toBooleanFlag]
  | obj fields => simp [toBooleanFlag]

theorem applySchema_of_high {s : DbSchema} (h : 4 ≤ s.userVersion) :
    applySchema s = s := by
  have h0 : ¬ s.userVersion = 0 := by omega
  have h2 : ¬ s.userVersion < 2 := by omega
  have h3 : ¬ s.userVersion < 3 := by omega
  have h4 : ¬ s.userVersion < 4 := by omega
  simp [applySchema, h0, h2, h3, h4]

theorem applySchema_low_version {s : DbSchema} (h : s.userVersion < 4) :
    (applySchema s).userVersion = 4 := by
  simp only [applySchema]
  simp [h]

/-- C3: applying the migration sequence is idempotent (a second run returns
the state of the first run unchanged, so the schema version and the table
set agree), the persisted version counter never decreases, and a state
whose persisted version already meets every migration target (4 and above)
is not changed at all, since each step is guarded by a comparison of the
initially read version against its target. -/
theorem applySchema_idempotent (s : DbSchema) :
    applySchema (applySchema s) = applySchema s ∧
    s.userVersion ≤ (applySchema s).userVersion ∧
    (4 ≤ s.userVersion → applySchema s = s) := by
  refine ⟨?_, ?_, fun h => applySchema_of_high h⟩
  · by_cases h : s.userVersion < 4
    · exact applySchema_of_high (by rw [applySchema_low_version h])
    · have hfix : applySchema s = s := applySchema_of_high (by omega)
      simp [hfix]
  · by_cases h : s.userVersion < 4
    · rw [applySchema_low_version h]; omega
    · have hfix : applySchema s = s := applySchema_of_high (by omega)
      simp [hfix]

theorem applySchema_idempotent_witness :
    applySchema (⟨6, ["meta", "bvl_mittel"]⟩ : DbSchema) = ⟨6, ["meta", "bvl_mittel"]⟩ :=
  (applySchema_idempotent ⟨6, ["meta", "bvl_mittel"]⟩).2.2 (by decide)

/-- C2: the bulk dataset import is atomic.  On any error the returned state
is exactly the pre-import state (the transaction rolled back, so no row of
the failing call is visible and every table keeps its previous rows).  On
success the six regulatory tables and the two lookup tables are exactly the
tables computed from the supplied payload alone (the initial DELETEs ran,
so every previous row of those tables is gone), every remaining part of the
state is untouched, and success is reported precisely when every supplied
row of every supplied table was inserted, because the row loop stops at the
first failing insert. -/
theorem importBvlDataset_atomic (db : BvlDb) (payload : JVal) :
    (∀ e, (importBvlDataset db payload).2 = .error e →
      (importBvlDataset db payload).1 = db) ∧
    (∀ t, importBvlTables payload = .ok t →
      (importBvlDataset db payload).1 =
        { db with
          mittel := t.mittel, awg := t.awg, awg_kultur := t.awg_kultur,
          awg_schadorg := t.awg_schadorg, awg_aufwand := t.awg_aufwand,
          awg_wartezeit := t.awg_wartezeit, lookup_kultur := t.lookup_kultur,
          lookup_schadorg := t.lookup_schadorg } ∧
      (importBvlDataset db payload).2 = .ok ()) := by
  unfold importBvlDataset
  cases h : importBvlTables payload with
  | ok t => simp
  | error e => simp

theorem importBvlDataset_atomic_witness :
    (importBvlDataset c2PreDb c2FailPayload).1 = c2PreDb :=
  (importBvlDataset_atomic c2PreDb c2FailPayload).1
    "FOREIGN KEY constraint failed" rfl

/-- C7: in the culture-association table the exclusion flag is part of the
composite primary key: with the parent application present, inserting the
pair (awg_id, kultur) once with ausgenommen 0 and once with ausgenommen 1
succeeds and leaves two distinct rows, while inserting the same triple a
second time violates the uniqueness of the composite primary key and
fails. -/
theorem awg_kultur_exclusion_flag_pk (awgTbl : List AwgRow) (tbl : List KulturRow)
    (a k : String) (n0 n1 : SqlVal)
    (hparent : awgTbl.any (fun p => sqlEqB p.awg_id (.text a)) = true)
    (hfresh : tbl.all (fun r =>
      !(sqlEqB r.awg_id (.text a) && sqlEqB r.kultur (.text k))) = true) :
    (∃ tbl1 tbl2,
      insertAwgKulturStrict awgTbl tbl ⟨.text a, .text k, .int 0, n0⟩ = .ok tbl1 ∧
      insertAwgKulturStrict awgTbl tbl1 ⟨.text a, .text k, .int 1, n1⟩ = .ok tbl2 ∧
      (⟨.text a, .text k, .int 0, n0⟩ : KulturRow) ∈ tbl2 ∧
      (⟨.text a, .text k, .int 1, n1⟩ : KulturRow) ∈ tbl2 ∧
      (⟨.text a, .text k, .int 0, n0⟩ : KulturRow) ≠ ⟨.text a, .text k, .int 1, n1⟩) ∧
    (∀ tbl1,
      insertAwgKulturStrict awgTbl tbl ⟨.text a, .text k, .int 0, n0⟩ = .ok tbl1 →
      ∃ e, insertAwgKulturStrict awgTbl tbl1 ⟨.text a, .text k, .int 0, n0⟩ = .error e) := by
  have hfresh0 : tbl.any (fun x =>
      sqlEqB x.awg_id (.text a) && sqlEqB x.kultur (.text k) &&
      sqlEqB x.ausgenommen (.int 0)) = false := by
    rw [List.any_eq_false]
    intro x hx
    have hx2 := (List.all_eq_true.1 hfresh) x hx
    simp only [Bool.not_eq_true'] at hx2
    rcases Bool.and_eq_false_iff.1 hx2 with h | h <;> simp [h]
  have hfresh1 : tbl.any (fun x =>
      sqlEqB x.awg_id (.text a) && sqlEqB x.kultur (.text k) &&
      sqlEqB x.ausgenommen (.int 1)) = false := by
    rw [List.any_eq_false]
    intro x hx
    have hx2 := (List.all_eq_true.1 hfresh) x hx
    simp only [Bool.not_eq_true'] at hx2
    rcases Bool.and_eq_false_iff.1 hx2 with h | h <;> simp [h]
  have hins0 : insertAwgKulturStrict awgTbl tbl ⟨.text a, .text k, .int 0, n0⟩ =
      .ok (tbl ++ [⟨.text a, .text k, .int 0, n0⟩]) := by
    simp [insertAwgKulturStrict, hparent, hfresh0]
  constructor
  · refine ⟨tbl ++ [⟨.text a, .text k, .int 0, n0⟩],
      tbl ++ [⟨.text a, .text k, .int 0, n0⟩] ++ [⟨.text a, .text k, .int 1, n1⟩],
      hins0, ?_, by simp, by simp, by simp⟩
    have hany1 : (tbl ++ [(⟨.text a, .text k, .int 0, n0⟩ : KulturRow)]).any (fun x =>
        sqlEqB x.awg_id (.text a) && sqlEqB x.kultur (.text k) &&
        sqlEqB x.ausgenommen (.int 1)) = false := by
      rw [List.any_append, hfresh1]
      simp [sqlEqB]
    simp [insertAwgKulturStrict, hparent, hany1]
  · intro tbl1 h1
    rw [hins0] at h1
    cases h1
    have hany : (tbl ++ [(⟨.text a, .text k, .int 0, n0⟩ : KulturRow)]).any (fun x =>
        sqlEqB x.awg_id (.text a) && sqlEqB x.kultur (.text k) &&
        sqlEqB x.ausgenommen (.int 0)) = true := by
      rw [List.any_append]
      simp [sqlEqB]
    have herr : insertAwgKulturStrict awgTbl
        (tbl ++ [(⟨.text a, .text k, .int 0, n0⟩ : KulturRow)])
        ⟨.text a, .text k, .int 0, n0⟩ =
        .error "UNIQUE constraint failed: bvl_awg_kultur.awg_id, bvl_awg_kultur.kultur, bvl_awg_kultur.ausgenommen" := by
      simp [insertAwgKulturStrict, hparent, hany]
    exact ⟨_, herr⟩

theorem awg_kultur_exclusion_flag_pk_witness :
    (∃ tbl1 tbl2,
      insertAwgKulturStrict [⟨.text "A1", .text "K1", .null, .null⟩] []
        ⟨.text "A1", .text "GENERAL", .int 0, .int 1⟩ = .ok tbl1 ∧
      insertAwgKulturStrict [⟨.text "A1", .text "K1", .null, .null⟩] tbl1
        ⟨.text "A1", .text "GENERAL", .int 1, .int 2⟩ = .ok tbl2 ∧
      (⟨.text "A1", .text "GENERAL", .int 0, .int 1⟩ : KulturRow) ∈ tbl2 ∧
      (⟨.text "A1", .text "GENERAL", .int 1, .int 2⟩ : KulturRow) ∈ tbl2 ∧
      (⟨.text "A1", .text "GENERAL", .int 0, .int 1⟩ : KulturRow) ≠
        ⟨.text "A1", .text "GENERAL", .int 1, .int 2⟩) ∧
    (∀ tbl1,
      insertAwgKulturStrict [⟨.text "A1", .text "K1", .null, .null⟩] []
        ⟨.text "A1", .text "GENERAL", .int 0, .int 1⟩ = .ok tbl1 →
      ∃ e, insertAwgKulturStrict [⟨.text "A1", .text "K1", .null, .null⟩] tbl1
        ⟨.text "A1", .text "GENERAL", .int 0, .int 1⟩ = .error e) :=
  awg_kultur_exclusion_flag_pk [⟨.text "A1", .text "K1", .null, .null⟩] []
    "A1" "GENERAL" (.int 1) (.int 2) (by decide) (by decide)

/-- C8: a waiting-period source record whose tage field is absent or whose
tage value does not parse as an integer is transformed with the number 0 in
its tage field (never null), per the `parseInt(item.tage) || 0` coercion of
the sync transform. -/
theorem wartezeit_tage_defaults_to_zero (item : JVal)
    (h : item.member "tage" = .undefined ∨ jsParseInt (item.member "tage") = none) :
    (transformWartezeitItem item).member "tage" = .num 0 ∧
    (transformWartezeitItem item).member "tage" ≠ .null := by
  have hnone : jsParseInt (item.member "tage") = none := by
    rcases h with h | h
    · rw [h]; rfl
    · exact h
  have hv : (transformWartezeitItem item).member "tage" =
      parseIntOrZero (item.member "tage") := rfl
  constructor
  · rw [hv]; simp [parseIntOrZero, hnone]
  · rw [hv]; simp [parseIntOrZero, hnone]

theorem wartezeit_tage_defaults_to_zero_witness :
    (transformWartezeitItem (.obj [("awg_id", .str "A1")])).member "tage" = .num 0 ∧
    (transformWartezeitItem (.obj [("awg_id", .str "A1")])).member "tage" ≠ .null :=
  wartezeit_tage_defaults_to_zero (.obj [("awg_id", .str "A1")]) (Or.inl rfl)

/-- C9: the effective LIMIT of listBvlMittel is always an integer between 1
and 5000; it equals 500 whenever the supplied limit is missing, not a
number, or not greater than 0, and a supplied numeric limit above 5000 is
reduced to 5000. -/
theorem listBvlMittel_limit_clamped (payload : JVal) :
    (1 ≤ listBvlMittelLimit payload ∧ listBvlMittelLimit payload ≤ 5000) ∧
    ((jsToNumber (payload.member "limit") = none ∨
      (∃ n, jsToNumber (payload.member "limit") = some n ∧ n ≤ 0)) →
      listBvlMittelLimit payload = 500) ∧
    (∀ n, jsToNumber (payload.member "limit") = some n → 5000 < n →
      listBvlMittelLimit payload = 5000) := by
  refine ⟨?_, ?_, ?_⟩
  · unfold listBvlMittelLimit
    cases h : jsToNumber (payload.member "limit") with
    | none => simp
    | some n =>
      by_cases hn : n ≤ 0
      · simp [hn]
      · simp only [hn, if_false]
        omega
  · intro h
    rcases h with h | ⟨n, hn, hle⟩
    · simp [listBvlMittelLimit, h]
    · simp [listBvlMittelLimit, hn, hle]
  · intro n hn hgt
    have : ¬ n ≤ 0 := by omega
    simp [listBvlMittelLimit, hn, this]
    omega

theorem listBvlMittel_limit_clamped_witness :
    listBvlMittelLimit (.obj []) = 500 :=
  (listBvlMittel_limit_clamped (.obj [])).2.1 (Or.inl rfl)

/-- C1 counterexample: importing the scenario dataset via importBvlDataset
and querying queryZulassung with the mittel filter 001-00 returns exactly
one row with the right kennr, but its geringes_risiko is strictly false,
not true as the claim states: toBooleanFlag lowercases the stored text J to
j, which is not in the truthy set. -/
theorem c1_scenario_counterexample :
    (queryZulassung (fun _ => true) (importBvlDataset emptyBvlDb c1Dataset).1
        (.obj [("mittel", .str "001-00")])).length = 1 ∧
    ¬ (∀ r ∈ queryZulassung (fun _ => true) (importBvlDataset emptyBvlDb c1Dataset).1
        (.obj [("mittel", .str "001-00")]), r.geringes_risiko = true) := by
  constructor
  · rfl
  · intro h
    have := h ⟨.text "001-00", "001-00", none, none, false, .text "A1", none⟩ (by
      rw [show queryZulassung (fun _ => true) (importBvlDataset emptyBvlDb c1Dataset).1
        (.obj [("mittel", .str "001-00")]) =
        [⟨.text "001-00", "001-00", none, none, false, .text "A1", none⟩] from rfl]
      simp)
    simp at this

/-- C1 amended: the scenario import succeeds and the query returns exactly
one result row whose kennr is 001-00, whose resolved name falls back to the
kennr, and whose geringes_risiko is strictly the boolean false (the raw
string J bypasses the transform layer and is not recognised by the truthy
parser), for every date comparison. -/
theorem c1_scenario_amended (dateGE : SqlVal → Bool) :
    (importBvlDataset emptyBvlDb c1Dataset).2 = .ok () ∧
    queryZulassung dateGE (importBvlDataset emptyBvlDb c1Dataset).1
        (.obj [("mittel", .str "001-00")]) =
      [⟨.text "001-00", "001-00", none, none, false, .text "A1", none⟩] :=
  ⟨rfl, rfl⟩

theorem find?_upsert_same (l : List (String × SqlVal)) (k : String) (v : SqlVal) :
    List.find? (fun kv => kv.1 = k)
      (List.filter (fun kv => kv.1 ≠ k) l ++ [(k, v)]) = some (k, v) := by
  induction l with
  | nil => simp [List.find?]
  | cons kv t ih =>
    rw [List.filter_cons]
    by_cases hk : kv.1 = k
    · rw [if_neg (by simp [hk])]
      exact ih
    · rw [if_pos (by simp [hk]), List.cons_append, List.find?_cons_of_neg _ (by simp [hk])]
      exact ih

theorem find?_upsert_other (l : List (String × SqlVal)) (k k2 : String) (v : SqlVal)
    (h : k2 ≠ k) :
    List.find? (fun kv => kv.1 = k2)
      (List.filter (fun kv => kv.1 ≠ k) l ++ [(k, v)]) =
      List.find? (fun kv => kv.1 = k2) l := by
  induction l with
  | nil => simp [List.find?, show ¬ (k = k2) from fun hc => h hc.symm]
  | cons kv t ih =>
    rw [List.filter_cons]
    by_cases hk : kv.1 = k
    · have hk2 : ¬ kv.1 = k2 := by rw [hk]; exact fun hc => h hc.symm
      rw [if_neg (by simp [hk]), List.find?_cons_of_neg _ (by simp [hk2])]
      exact ih
    · rw [if_pos (by simp [hk]), List.cons_append, List.find?_cons, List.find?_cons]
      by_cases hk2 : kv.1 = k2
      · simp [hk2]
      · have hd : decide (kv.1 = k2) = false := by simp [hk2]
        simp only [hd]
        exact ih

theorem getBvlMeta_set_same (db : BvlDb) (k : String) (v : SqlVal) :
    getBvlMeta (setBvlMeta db k v) k = v := by
  unfold getBvlMeta setBvlMeta
  rw [find?_upsert_same]

theorem getBvlMeta_set_other (db : BvlDb) (k k2 : String) (v : SqlVal)
    (h : k2 ≠ k) :
    getBvlMeta (setBvlMeta db k v) k2 = getBvlMeta db k2 := by
  unfold getBvlMeta setBvlMeta
  rw [find?_upsert_other _ _ _ _ h]

theorem getBvlMeta_append_log (db : BvlDb) (a : String) (b : Int) (c : String)
    (d : SqlVal) (k : String) :
    getBvlMeta (appendSyncLogRow db a b c d) k = getBvlMeta db k := rfl

/-- C4: running the sync twice on an identical fetched payload performs no
write to the six regulatory tables on the second run and only appends a
no-change log entry carrying exactly the hash that the first (updating) run
persisted in the lastSyncHash metadata: the second run returns the
no-change status and its final state differs from the post-first-run state
only by the appended sync-log row. -/
theorem sync_second_run_no_change (hash : JVal → String) (db1 : BvlDb)
    (raw : JVal) (n2 : String)
    (hm : getBvlMeta db1 "lastSyncHash" = .text (hash raw)) :
    syncBvlData hash db1 (.ok raw) n2 =
      (appendSyncLogRow db1 n2 1 "no-change" (.text (hash raw)), "no-change") := by
  unfold syncBvlData
  simp only [hm]
  simp

theorem sync_noop_on_unchanged (hash : JVal → String) (db0 : BvlDb) (raw : JVal)
    (n1 n2 : String)
    (h1 : (syncBvlData hash db0 (.ok raw) n1).2 = "updated") :
    (syncBvlData hash (syncBvlData hash db0 (.ok raw) n1).1 (.ok raw) n2).2 =
      "no-change" ∧
    (syncBvlData hash (syncBvlData hash db0 (.ok raw) n1).1 (.ok raw) n2).1 =
      { (syncBvlData hash db0 (.ok raw) n1).1 with
        sync_log := (syncBvlData hash db0 (.ok raw) n1).1.sync_log ++
          [⟨.text n2, .int 1, .text "no-change", .text (hash raw)⟩] } ∧
    getBvlMeta (syncBvlData hash db0 (.ok raw) n1).1 "lastSyncHash" =
      .text (hash raw) := by
  have hmeta : getBvlMeta (syncBvlData hash db0 (.ok raw) n1).1 "lastSyncHash" =
      .text (hash raw) := by
    unfold syncBvlData at h1 ⊢
    simp only [] at h1 ⊢
    by_cases hsame : (match getBvlMeta db0 "lastSyncHash" with
      | SqlVal.text s => decide (s = hash raw)
      | _ => false) = true
    · rw [if_pos hsame] at h1
      simp at h1
    · rw [if_neg hsame] at h1 ⊢
      obtain ⟨dbI, res, himp⟩ :
          ∃ a b, importBvlDataset db0 (transformBvlData raw) = (a, b) :=
        ⟨_, _, rfl⟩
      rw [himp] at h1 ⊢
      cases res with
      | ok u =>
        cases u
        show getBvlMeta (appendSyncLogRow
          (setBvlMeta (setBvlMeta dbI "lastSyncHash" (SqlVal.text (hash raw)))
            "lastSyncIso" (SqlVal.text n1)) n1 1 "updated" (SqlVal.text (hash raw)))
          "lastSyncHash" = SqlVal.text (hash raw)
        rw [getBvlMeta_append_log,
          getBvlMeta_set_other _ _ _ _ (by decide),
          getBvlMeta_set_same]
      | error e => simp at h1
  refine ⟨?_, ?_, hmeta⟩
  · rw [sync_second_run_no_change hash _ raw n2 hmeta]
  · rw [sync_second_run_no_change hash _ raw n2 hmeta]
    rfl

theorem sync_noop_on_unchanged_witness :
    (syncBvlData c4Hash emptyBvlDb (.ok (.obj [])) "t1").2 = "updated" ∧
    (syncBvlData c4Hash (syncBvlData c4Hash emptyBvlDb (.ok (.obj [])) "t1").1
      (.ok (.obj [])) "t2").2 = "no-change" :=
  ⟨rfl, (sync_noop_on_unchanged c4Hash emptyBvlDb (.obj []) "t1" "t2" rfl).1⟩

theorem mem_of_mem_if_filter {α : Type} {P : Prop} [Decidable P]
    {f : α → Bool} {l : List α} {x : α}
    (h : x ∈ (if P then l.filter f else l)) : x ∈ l := by
  split at h
  · exact (List.mem_filter.1 h).1
  · exact h

theorem qzFilteredPairs_mem (dateGE : SqlVal → Bool) (db : BvlDb) (payload : JVal)
    (p : MittelRow × AwgRow) (hp : p ∈ qzFilteredPairs dateGE db payload) :
    p.1 ∈ db.mittel ∧ p.2 ∈ db.awg := by
  simp only [qzFilteredPairs] at hp
  have hp4 := mem_of_mem_if_filter hp
  have hp3 := mem_of_mem_if_filter hp4
  have hp2 := mem_of_mem_if_filter hp3
  have hp1 := mem_of_mem_if_filter hp2
  have hp0 := mem_of_mem_if_filter hp1
  simp only [List.mem_flatMap, List.mem_map, List.mem_filter] at hp0
  obtain ⟨m, hm, a, ⟨ha, _⟩, hpa⟩ := hp0
  rw [← hpa]
  exact ⟨hm, ha⟩

theorem queryZulassung_mem (dateGE : SqlVal → Bool) (db : BvlDb) (payload : JVal)
    (r : ResultRow) (hr : r ∈ queryZulassung dateGE db payload) :
    ∃ p ∈ qzFilteredPairs dateGE db payload,
      r = enrichResult (qzSelectRow p.1 p.2) := by
  simp only [queryZulassung, List.mem_map] at hr
  obtain ⟨q, hq, hqr⟩ := hr
  rw [mem_sortByB] at hq
  rw [List.mem_dedup] at hq
  simp only [List.mem_map] at hq
  obtain ⟨p, hp, hpq⟩ := hq
  exact ⟨p, hp, by rw [← hqr, ← hpq]⟩

theorem listBvlMittel_mem (db : BvlDb) (payload : JVal) (e : MittelEntry)
    (he : e ∈ listBvlMittel db payload) :
    ∃ m ∈ db.mittel, e = listEntryOf m := by
  simp only [listBvlMittel, List.mem_map] at he
  obtain ⟨m, hm, hme⟩ := he
  have hm2 : m ∈ sortByB mittelNameLE
      (if (if jsTruthy (payload.member "search") then
            jsTrim (jsString (payload.member "search")) else "") ≠ "" then
        db.mittel.filter _ else db.mittel) :=
    List.take_subset _ _ hm
  rw [mem_sortByB] at hm2
  have hm3 := mem_of_mem_if_filter hm2
  exact ⟨m, hm3, hme.symm⟩

theorem member_obj_field (fs : List (String × JVal)) (k : String) :
    (JVal.obj fs).member k =
      (match jsonField fs k with | some v => v | none => .undefined) := by
  show (match fs.find? (fun kv => kv.1 = k) with
        | some kv => kv.2
        | none => JVal.undefined) =
      (match jsonField fs k with | some v => v | none => .undefined)
  unfold jsonField
  cases fs.find? (fun kv => kv.1 = k) <;> rfl

theorem sqlJsonExtract_field (t : String) (fs : List (String × JVal)) (k : String)
    (hj : jsonParse t = some (.obj fs)) :
    sqlJsonExtract (.text t) k =
      (match jsonField fs k with | some v => jsonMemberToSql v | none => .null) := by
  show (match jsonParse t with
        | some (.obj fields) =>
          match fields.find? (fun kv => kv.1 = k) with
          | some kv => jsonMemberToSql kv.2
          | none => SqlVal.null
        | _ => SqlVal.null) =
      (match jsonField fs k with | some v => jsonMemberToSql v | none => .null)
  rw [hj]
  show (match fs.find? (fun kv => kv.1 = k) with
        | some kv => jsonMemberToSql kv.2
        | none => SqlVal.null) =
      (match jsonField fs k with | some v => jsonMemberToSql v | none => .null)
  unfold jsonField
  cases fs.find? (fun kv => kv.1 = k) <;> rfl

theorem pick_members_name (fs : List (String × JVal)) (s : String) (rest : List JVal)
    (hcase : nameOnlyInPayload fs s) (hs : jsTrim s ≠ "") :
    pickFirstNonEmpty ((JVal.obj fs).member "mittelname" ::
      (JVal.obj fs).member "mittel_name" ::
      (JVal.obj fs).member "mittelName" :: rest) = .str (jsTrim s) := by
  rw [member_obj_field, member_obj_field, member_obj_field]
  rcases hcase with ⟨h1, h2, h3⟩ | ⟨h1, h2, h3⟩ | ⟨h1, h2, h3⟩ <;>
    rw [h1, h2, h3] <;> simp [pickFirstNonEmpty, hs]

theorem listEntryOf_name (m : MittelRow) (t s : String) (fs : List (String × JVal))
    (hname : m.name = SqlVal.null ∨ ∃ w, m.name = SqlVal.text w ∧ jsTrim w = "")
    (hp : m.payload_json = .text t)
    (hj : jsonParse t = some (.obj fs))
    (hcase : nameOnlyInPayload fs s) (hs : jsTrim s ≠ "") :
    (listEntryOf m).name = jsTrim s := by
  have hpay : (match safeJsonParse m.payload_json with
      | some j => j | none => JVal.null) = JVal.obj fs := by
    rw [hp]
    show (match jsonParse t with | some j => j | none => JVal.null) = JVal.obj fs
    rw [hj]
  simp only [listEntryOf]
  rw [hpay]
  rcases hname with hn | ⟨w, hw, hwt⟩
  · rw [hn]
    show (let resolvedName := pickFirstNonEmpty (JVal.null ::
        (JVal.obj fs).member "mittelname" :: (JVal.obj fs).member "mittel_name" ::
        (JVal.obj fs).member "mittelName" :: [sqlToJs m.kennr])
      if jsTruthy resolvedName then jsString resolvedName
      else jsString (sqlToJs m.kennr)) = jsTrim s
    rw [show pickFirstNonEmpty (JVal.null ::
        (JVal.obj fs).member "mittelname" :: (JVal.obj fs).member "mittel_name" ::
        (JVal.obj fs).member "mittelName" :: [sqlToJs m.kennr]) =
      pickFirstNonEmpty ((JVal.obj fs).member "mittelname" ::
        (JVal.obj fs).member "mittel_name" ::
        (JVal.obj fs).member "mittelName" :: [sqlToJs m.kennr]) from rfl]
    rw [pick_members_name fs s _ hcase hs]
    simp [jsTruthy, jsString, hs]
  · rw [hw]
    show (let resolvedName := pickFirstNonEmpty (JVal.str w ::
        (JVal.obj fs).member "mittelname" :: (JVal.obj fs).member "mittel_name" ::
        (JVal.obj fs).member "mittelName" :: [sqlToJs m.kennr])
      if jsTruthy resolvedName then jsString resolvedName
      else jsString (sqlToJs m.kennr)) = jsTrim s
    rw [show pickFirstNonEmpty (JVal.str w ::
        (JVal.obj fs).member "mittelname" :: (JVal.obj fs).member "mittel_name" ::
        (JVal.obj fs).member "mittelName" :: [sqlToJs m.kennr]) =
      (if jsTrim w = "" then pickFirstNonEmpty ((JVal.obj fs).member "mittelname" ::
        (JVal.obj fs).member "mittel_name" ::
        (JVal.obj fs).member "mittelName" :: [sqlToJs m.kennr])
       else .str (jsTrim w)) from rfl]
    rw [if_pos hwt]
    rw [pick_members_name fs s _ hcase hs]
    simp [jsTruthy, jsString, hs]

theorem qzNameExpr_payload (m : MittelRow) (t s : String) (fs : List (String × JVal))
    (hp : m.payload_json = .text t)
    (hj : jsonParse t = some (.obj fs))
    (hcase : nameOnlyInPayload fs s) (hs : jsTrim s ≠ "") :
    qzNameExpr m =
      (if sqlNullifEmpty (sqlTrim m.name) = SqlVal.null then .text (sqlTrimText s)
       else sqlNullifEmpty (sqlTrim m.name)) := by
  have hsql : sqlTrimText s ≠ "" := sqlTrimText_ne_empty hs
  unfold qzNameExpr
  rw [hp, sqlJsonExtract_field t fs _ hj, sqlJsonExtract_field t fs _ hj,
    sqlJsonExtract_field t fs _ hj, sqlJsonExtract_field t fs _ hj]
  rcases hcase with ⟨h1, h2, h3⟩ | ⟨h1, h2, h3⟩ | ⟨h1, h2, h3⟩ <;>
    rw [h1, h2, h3] <;>
    by_cases hn : sqlNullifEmpty (sqlTrim m.name) = SqlVal.null <;>
    simp [sqlCoalesce, jsonMemberToSql, sqlTrim, sqlNullifEmpty, hsql, hn]

theorem enrich_name_payload (m : MittelRow) (a : AwgRow) (t s : String)
    (fs : List (String × JVal))
    (hname : m.name = SqlVal.null ∨ ∃ w, m.name = SqlVal.text w ∧ jsTrim w = "")
    (hp : m.payload_json = .text t)
    (hj : jsonParse t = some (.obj fs))
    (hcase : nameOnlyInPayload fs s) (hs : jsTrim s ≠ "") :
    (enrichResult (qzSelectRow m a)).name = jsTrim s := by
  have hpay : (match safeJsonParse m.payload_json with
      | some j => j | none => JVal.null) = JVal.obj fs := by
    rw [hp]
    show (match jsonParse t with | some j => j | none => JVal.null) = JVal.obj fs
    rw [hj]
  have hqz := qzNameExpr_payload m t s fs hp hj hcase hs
  have hqname : (qzSelectRow m a).name = qzNameExpr m := rfl
  have hqkennr : (qzSelectRow m a).kennr = m.kennr := rfl
  have hqpayload : (qzSelectRow m a).mittel_payload = m.payload_json := rfl
  have hres : (enrichResult (qzSelectRow m a)).name =
      (let resolvedName := pickFirstNonEmpty (sqlToJs (qzNameExpr m) ::
        (JVal.obj fs).member "mittelname" :: (JVal.obj fs).member "mittel_name" ::
        (JVal.obj fs).member "mittelName" :: (JVal.obj fs).member "name" ::
        [sqlToJs m.kennr])
      if jsTruthy resolvedName then jsString resolvedName
      else jsString (sqlToJs m.kennr)) := by
    simp only [enrichResult, hqname, hqkennr, hqpayload, hpay]
  have hpickGood : pickFirstNonEmpty (sqlToJs (SqlVal.text (sqlTrimText s)) ::
      (JVal.obj fs).member "mittelname" :: (JVal.obj fs).member "mittel_name" ::
      (JVal.obj fs).member "mittelName" :: (JVal.obj fs).member "name" ::
      [sqlToJs m.kennr]) = .str (jsTrim (sqlTrimText s)) := by
    show (if jsTrim (sqlTrimText s) = "" then pickFirstNonEmpty
        ((JVal.obj fs).member "mittelname" :: (JVal.obj fs).member "mittel_name" ::
         (JVal.obj fs).member "mittelName" :: (JVal.obj fs).member "name" ::
         [sqlToJs m.kennr])
      else .str (jsTrim (sqlTrimText s))) = .str (jsTrim (sqlTrimText s))
    rw [if_neg (by rw [jsTrim_sqlTrimText]; exact hs)]
  rw [hres, hqz]
  rcases hname with hn | ⟨w, hw, hwt⟩
  · have hinner : (if sqlNullifEmpty (sqlTrim m.name) = SqlVal.null
        then SqlVal.text (sqlTrimText s)
        else sqlNullifEmpty (sqlTrim m.name)) = SqlVal.text (sqlTrimText s) := by
      rw [hn]
      rfl
    rw [hinner, hpickGood, jsTrim_sqlTrimText]
    simp [jsTruthy, jsString, hs]
  · by_cases hw2 : sqlTrimText w = ""
    · have hinner : (if sqlNullifEmpty (sqlTrim m.name) = SqlVal.null
          then SqlVal.text (sqlTrimText s)
          else sqlNullifEmpty (sqlTrim m.name)) = SqlVal.text (sqlTrimText s) := by
        rw [hw]
        simp [sqlTrim, sqlNullifEmpty, hw2]
      rw [hinner, hpickGood, jsTrim_sqlTrimText]
      simp [jsTruthy, jsString, hs]
    · have hinner : (if sqlNullifEmpty (sqlTrim m.name) = SqlVal.null
          then SqlVal.text (sqlTrimText s)
          else sqlNullifEmpty (sqlTrim m.name)) = SqlVal.text (sqlTrimText w) := by
        rw [hw]
        simp [sqlTrim, sqlNullifEmpty, hw2]
      have hwskip : jsTrim (sqlTrimText w) = "" := by
        rw [jsTrim_sqlTrimText]; exact hwt
      have hskip : pickFirstNonEmpty (sqlToJs (SqlVal.text (sqlTrimText w)) ::
          (JVal.obj fs).member "mittelname" :: (JVal.obj fs).member "mittel_name" ::
          (JVal.obj fs).member "mittelName" :: (JVal.obj fs).member "name" ::
          [sqlToJs m.kennr]) =
          pickFirstNonEmpty ((JVal.obj fs).member "mittelname" ::
            (JVal.obj fs).member "mittel_name" :: (JVal.obj fs).member "mittelName" ::
            (JVal.obj fs).member "name" :: [sqlToJs m.kennr]) := by
        show (if jsTrim (sqlTrimText w) = "" then pickFirstNonEmpty
            ((JVal.obj fs).member "mittelname" :: (JVal.obj fs).member "mittel_name" ::
             (JVal.obj fs).member "mittelName" :: (JVal.obj fs).member "name" ::
             [sqlToJs m.kennr])
          else .str (jsTrim (sqlTrimText w))) = _
        rw [if_pos hwskip]
      rw [hinner, hskip, pick_members_name fs s _ hcase hs]
      simp [jsTruthy, jsString, hs]

/-- C5: for a product row whose display name is absent from the physical
name column (the only physical name column of the version-2 schema) and
present only in the JSON payload under exactly one of the key spellings
mittelname, mittel_name or mittelName, every queryZulassung result row for
that product and every listBvlMittel entry for that product carries the
identical resolved name string, namely the trimmed payload value. -/
theorem synonym_resolution_stable (dateGE : SqlVal → Bool) (db : BvlDb)
    (qp lp : JVal) (m : MittelRow) (t s : String) (fs : List (String × JVal))
    (_hm : m ∈ db.mittel)
    (huniq : ∀ m2 ∈ db.mittel, m2.kennr = m.kennr → m2 = m)
    (hname : m.name = SqlVal.null ∨ ∃ w, m.name = SqlVal.text w ∧ jsTrim w = "")
    (hp : m.payload_json = .text t)
    (hj : jsonParse t = some (.obj fs))
    (hcase : nameOnlyInPayload fs s)
    (hs : jsTrim s ≠ "") :
    (∀ r ∈ queryZulassung dateGE db qp, r.kennr = m.kennr → r.name = jsTrim s) ∧
    (∀ e ∈ listBvlMittel db lp, e.kennr = m.kennr → e.name = jsTrim s) := by
  constructor
  · intro r hr hk
    obtain ⟨p, hpmem, hre⟩ := queryZulassung_mem dateGE db qp r hr
    obtain ⟨hm1, _⟩ := qzFilteredPairs_mem dateGE db qp p hpmem
    have hkr : r.kennr = p.1.kennr := by rw [hre]; rfl
    have heq : p.1 = m := huniq p.1 hm1 (by rw [← hkr]; exact hk)
    rw [hre, heq]
    exact enrich_name_payload m p.2 t s fs hname hp hj hcase hs
  · intro e he hk
    obtain ⟨m2, hm2, hem⟩ := listBvlMittel_mem db lp e he
    have hkr : e.kennr = m2.kennr := by rw [hem]; rfl
    have heq : m2 = m := huniq m2 hm2 (by rw [← hkr]; exact hk)
    rw [hem, heq]
    exact listEntryOf_name m t s fs hname hp hj hcase hs

theorem synonym_resolution_stable_witness :
    ((queryZulassung (fun _ => true) c5Db (.obj [])).map (fun r => r.name) = ["Foo"] ∧
     (listBvlMittel c5Db (.obj [])).map (fun e => e.name) = ["Foo"]) ∧
    (∀ r ∈ queryZulassung (fun _ => true) c5Db (.obj []),
      r.kennr = SqlVal.text "00A-01" → r.name = "Foo") ∧
    (∀ e ∈ listBvlMittel c5Db (.obj []),
      e.kennr = SqlVal.text "00A-01" → e.name = "Foo") := by
  have h := synonym_resolution_stable (fun _ => true) c5Db (.obj []) (.obj [])
    c5Mittel "\x7b\"mittel_name\":\" Foo \"\x7d" " Foo "
    [("mittel_name", .str " Foo ")]
    (by decide) (by decide) (Or.inl rfl) rfl rfl
    (Or.inr (Or.inl ⟨rfl, rfl, rfl⟩)) (by decide)
  exact ⟨⟨rfl, rfl⟩, h.1, h.2⟩

theorem lookupGen_updateGen_ne (gdb : GenDb) (k name : String) (f : GenTable → GenTable)
    (h : name ≠ k) :
    lookupGen (updateGen gdb k f) name = lookupGen gdb name := by
  unfold lookupGen updateGen
  induction gdb with
  | nil => rfl
  | cons e t ih =>
    rw [List.map_cons, List.find?_cons, List.find?_cons]
    have hfst : ((if e.1 = k then (e.1, f e.2) else e) : String × GenTable).1 = e.1 := by
      split <;> rfl
    rw [hfst]
    by_cases hn : e.1 = name
    · have hek : ¬ e.1 = k := by rw [hn]; exact h
      rw [if_neg hek]
      simp [hn]
    · have hd : decide (e.1 = name) = false := by simp [hn]
      simp only [hd]
      exact ih

theorem lookupGen_append_ne (gdb : GenDb) (k name : String) (tbl : GenTable)
    (h : name ≠ k) :
    lookupGen (gdb ++ [(k, tbl)]) name = lookupGen gdb name := by
  unfold lookupGen
  induction gdb with
  | nil =>
    have hd : decide ((k, tbl).1 = name) = false := by
      simp [show ¬ (k = name) from fun hc => h hc.symm]
    simp only [List.nil_append, List.find?_cons, hd, List.find?_nil]
  | cons e t ih =>
    rw [List.cons_append, List.find?_cons, List.find?_cons]
    by_cases hn : e.1 = name
    · simp [hn]
    · have hd : decide (e.1 = name) = false := by simp [hn]
      simp only [hd]
      exact ih

theorem lookupGen_foldl_preserved {β : Type} (step : GenDb → β → GenDb) (name : String)
    (hstep : ∀ g b, lookupGen (step g b) name = lookupGen g name)
    (l : List β) (gdb : GenDb) :
    lookupGen (l.foldl step gdb) name = lookupGen gdb name := by
  induction l generalizing gdb with
  | nil => rfl
  | cons b rest ih => rw [List.foldl_cons, ih, hstep]

theorem processTable_preserves_sync_log (remote : GenDb) (gdb : GenDb) (t : String) :
    lookupGen (processTable remote gdb t) "bvl_sync_log" =
      lookupGen gdb "bvl_sync_log" := by
  unfold processTable
  by_cases ht : t = "bvl_sync_log"
  · rw [if_pos ht]
  · rw [if_neg ht]
    have hne : "bvl_sync_log" ≠ t := fun hc => ht hc.symm
    cases lookupGen remote t with
    | none => rfl
    | some rt =>
      dsimp only
      by_cases hc : rt.columns.isEmpty = true
      · simp [hc]
      · rw [if_neg (by simp [hc])]
        have hbase : lookupGen (match lookupGen gdb t with
            | some _ => gdb
            | none => gdb ++ [(t, ⟨rt.columns, rt.pk, []⟩)]) "bvl_sync_log" =
            lookupGen gdb "bvl_sync_log" := by
          cases lookupGen gdb t with
          | some _ => rfl
          | none => exact lookupGen_append_ne _ _ _ _ hne
        split
        · rw [lookupGen_updateGen_ne _ _ _ _ hne]
          exact hbase
        · rw [lookupGen_updateGen_ne _ _ _ _ hne,
            lookupGen_updateGen_ne _ _ _ _ hne]
          exact hbase

theorem hydrateGen_preserves_sync_log (gdb : GenDb) :
    lookupGen (hydrateGen gdb) "bvl_sync_log" = lookupGen gdb "bvl_sync_log" := by
  unfold hydrateGen
  exact lookupGen_updateGen_ne _ _ _ _ (by decide)

theorem applyManifestMeta_preserves_sync_log (gdb : GenDb) (manifest : JVal)
    (nowIso : String) (g : GenDb)
    (h : applyManifestMeta gdb manifest nowIso = .ok g) :
    lookupGen g "bvl_sync_log" = lookupGen gdb "bvl_sync_log" := by
  unfold applyManifestMeta at h
  by_cases hman : (!jsTruthy manifest) = true
  · rw [if_pos hman] at h
    cases h
    rfl
  · rw [if_neg hman] at h
    rcases hmeta : lookupGen gdb "bvl_meta" with _ | tbl
    · rw [hmeta] at h
      cases h
    · rw [hmeta] at h
      cases h
      exact lookupGen_foldl_preserved _ _
        (fun g2 kv => lookupGen_updateGen_ne g2 _ _ _ (by decide)) _ gdb

/-- C10: importBvlSqlite never touches the local sync log.  For every local
database, foreign instance, manifest and integrity outcome, the
bvl_sync_log table of the resulting state is exactly the bvl_sync_log table
of the pre-import state: the copy loop skips that table by name, the
hydration pass touches only bvl_mittel, the manifest update touches only
bvl_meta, and every failing path rolls back to the original state. -/
theorem importBvlSqlite_preserves_sync_log (db remote : GenDb) (manifest : JVal)
    (integrityOk : Bool) (nowIso : String) :
    lookupGen (importBvlSqlite db remote manifest integrityOk nowIso).1
        "bvl_sync_log" =
      lookupGen db "bvl_sync_log" := by
  unfold importBvlSqlite
  cases hmeta : applyManifestMeta
      (hydrateGen ((sortByB strLE ((remote.filter
        (fun e => likeBvlPattern e.1)).map (fun e => e.1))).foldl
          (processTable remote) db)) manifest nowIso with
  | error e =>
    simp only [hmeta, Except.bind]
    rfl
  | ok g3 =>
    simp only [hmeta, Except.bind]
    have hg3 : lookupGen g3 "bvl_sync_log" = lookupGen db "bvl_sync_log" := by
      rw [applyManifestMeta_preserves_sync_log _ _ _ _ hmeta,
        hydrateGen_preserves_sync_log,
        lookupGen_foldl_preserved _ _ (fun g b =>
          processTable_preserves_sync_log remote g b)]
    cases integrityOk with
    | true => exact hg3
    | false => rfl

theorem toBooleanFlag_truthy_set_witness :
    toBooleanFlag (.str " Ja ") = 1 :=
  (toBooleanFlag_truthy_set (.str " Ja ")).1.2
    (Or.inr (Or.inr ⟨" Ja ", rfl, by decide⟩))

theorem importBvlSqlite_preserves_sync_log_witness :
    lookupGen (importBvlSqlite c10Db c10Remote .null true "2026-01-01").1
        "bvl_sync_log" =
      lookupGen c10Db "bvl_sync_log" :=
  importBvlSqlite_preserves_sync_log c10Db c10Remote .null true "2026-01-01"
